import Mathlib

/-!
Verification development for the Phaser tile-layer data model
(`src/tilemap/Tile.js`, `src/tilemap/TileLayer.js`, and the region helpers of
`Tilemap`).  The JavaScript sources are shallowly embedded: objects become
structures, in-place mutation becomes explicit state passing, JS `TypeError`
exceptions (null/undefined dereference) become `Option.none` results, and the
JS 32-bit bitwise operators on small non-negative masks become `Nat` bitwise
operators (`a & ~m` is embedded as `a &&& (0xFFFFFFFF ^^^ m)`, matching the
32-bit truncation of JS `~`).

Tile property caches (`_properties`, `_indexProperties`, `_roleProperties`)
are caches of shared opaque JS objects; they are not observed by any property
proved here and are omitted from the `Tile` record, as are the pixel-size
fields of the layer (`tileWidth`, `tileHeight`, ...), which no embedded
operation reads.
-/

namespace Phaser

/-- `Phaser.Tile.COLLIDE_ALL` : mask of the four collide bits. -/
def COLLIDE_ALL : Nat := 0x0f

/-- `Phaser.Tile.FACE_ALL` : mask of the four face bits. -/
def FACE_ALL : Nat := 0xf0

/-- JS 32-bit `a & ~m` for non-negative `a` below `2^32`: `~m` truncates to
32 bits, so the embedding uses `a &&& (0xFFFFFFFF ^^^ m)`. -/
def jsAndNot (a m : Nat) : Nat := a &&& (0xFFFFFFFF ^^^ m)

/-- One cell's data: `Phaser.Tile` (second, current revision of `Tile.js`).
`expanded` models `_expanded` and `collisionTest` models the `_collisionTest`
handler array as an opaque identity (its internal shape is modelled separately
for the collision-dispatch claim).  Property caches are omitted (see file
header). -/
structure Tile where
  tileIndex : Int
  roleId : Int
  x : Int
  y : Int
  alpha : ℚ
  tileFlags : Nat
  expanded : Bool
  collisionTest : Option Nat
  deriving Repr, DecidableEq

/-- `new Phaser.Tile(layer, tileIndex, x, y)` (the non-owning `layer`
back-reference is passed explicitly to the operations that read it). -/
def mkTile (tileIndex x y : Int) : Tile :=
  { tileIndex := tileIndex, roleId := 0, x := x, y := y, alpha := 1,
    tileFlags := 0, expanded := false, collisionTest := none }

/-- `Tile#collideUp` getter: `(this.tileFlags & 0x08) !== 0`. -/
def Tile.collideUp (t : Tile) : Bool := t.tileFlags &&& 0x08 != 0

/-- `Tile#collideDown` getter: `(this.tileFlags & 0x04) !== 0`. -/
def Tile.collideDown (t : Tile) : Bool := t.tileFlags &&& 0x04 != 0

/-- `Tile#collideLeft` getter: `(this.tileFlags & 0x02) !== 0`. -/
def Tile.collideLeft (t : Tile) : Bool := t.tileFlags &&& 0x02 != 0

/-- `Tile#collideRight` getter: `(this.tileFlags & 0x01) !== 0`. -/
def Tile.collideRight (t : Tile) : Bool := t.tileFlags &&& 0x01 != 0

/-- `Tile#faceTop` getter: `(this.tileFlags & 0x80) !== 0`. -/
def Tile.faceTop (t : Tile) : Bool := t.tileFlags &&& 0x80 != 0

/-- `Tile#faceBottom` getter: `(this.tileFlags & 0x40) !== 0`. -/
def Tile.faceBottom (t : Tile) : Bool := t.tileFlags &&& 0x40 != 0

/-- `Tile#faceLeft` getter: `(this.tileFlags & 0x20) !== 0`. -/
def Tile.faceLeft (t : Tile) : Bool := t.tileFlags &&& 0x20 != 0

/-- `Tile#faceRight` getter: `(this.tileFlags & 0x10) !== 0`. -/
def Tile.faceRight (t : Tile) : Bool := t.tileFlags &&& 0x10 != 0

/-- `Tile#resetToNonExistant`.  A non-expanded tile's `_collisionTest` is
already the prototype default `undefined`, so the conditional clearing of the
source is an unconditional `none` here. -/
def Tile.resetToNonExistant (t : Tile) : Tile :=
  { t with tileIndex := -1, roleId := 0, tileFlags := 0, alpha := 1,
           collisionTest := none }

/-- `Tile#copyFrom(srcTile, disconnect)`: copies index, role, alpha and flags;
when the source is expanded the extension data is carried over.  `disconnect`
only controls the deep-clone of the omitted per-location `_properties` cache,
so it is unused here; `x`/`y` are not copied, exactly as in the source. -/
def Tile.copyFrom (t : Tile) (srcTile : Tile) (_disconnect : Bool) : Tile :=
  let t := { t with tileIndex := srcTile.tileIndex, roleId := srcTile.roleId,
                    alpha := srcTile.alpha, tileFlags := srcTile.tileFlags }
  if srcTile.expanded then
    { t with expanded := true, collisionTest := srcTile.collisionTest }
  else t

/-- `Tile#clone(disconnect)` : `new Tile(layer, -1, x, y)` + `copyFrom`. -/
def Tile.clone (t : Tile) (disconnect : Bool) : Tile :=
  (mkTile (-1) t.x t.y).copyFrom t disconnect

/-- `Phaser.TileLayer~IndexData` : per-index rule record. -/
structure IndexData where
  defaultCollideMask : Option Nat
  collisionTest : Option Nat
  collisionContext : Option Nat
  indexProperties : Option Nat
  deriving Repr, DecidableEq

/-- `Phaser.TileLayer~RoleData` (the opaque `properties` object is omitted). -/
structure TileRole where
  roleId : Nat
  roleName : String
  deriving Repr, DecidableEq

/-- The grid: `TileLayer#data`, rows of nullable tiles. -/
abbrev Grid := List (List (Option Tile))

/-- `Phaser.TileLayer`.  The JS sparse array `_indexData` (which may gain
negative-index entries as plain object properties) is an association list.
The `_rolesByName` object distinguishes an absent key (JS `undefined`: no list
entry) from a key stored as `null` (`some none`), which `createTileRole`
actually writes.  `ruleApplyRuns`/`faceCalcRuns` are ghost instrumentation
counters (not in the source) counting how often the body of
`applyRules`/`calculateFaces` executes, for the spec's "instrumented
invocation counter" idempotence property. -/
structure TileLayer where
  width : Int
  height : Int
  data : Grid
  roleData : List (Option TileRole)
  rolesByName : List (String × Option TileRole)
  indexData : List (Int × IndexData)
  changeCount : Nat
  ruleChanges : Nat
  clearedChangeCount : Nat
  clearedApplyRules : Nat
  clearedCalculateFaces : Nat
  suppressed : Bool
  ruleApplyRuns : Nat
  faceCalcRuns : Nat
  deriving Repr, DecidableEq

/-- `new Phaser.TileLayer(tilemap, width, height, ...)`: a `height × width`
grid of `null` cells, `_roleData = [null]`, empty rule tables, all counters
zero. -/
def mkTileLayer (width height : Int) : TileLayer :=
  { width := width, height := height,
    data := List.replicate height.toNat (List.replicate width.toNat none),
    roleData := [none], rolesByName := [], indexData := [],
    changeCount := 0, ruleChanges := 0, clearedChangeCount := 0,
    clearedApplyRules := 0, clearedCalculateFaces := 0,
    suppressed := false, ruleApplyRuns := 0, faceCalcRuns := 0 }

/-- Read a grid slot; any out-of-range access is JS `undefined`, i.e. `none`
(this includes a missing row, as in `rowAbove && rowAbove[x]`). -/
def gridGet (g : Grid) (x y : Int) : Option Tile :=
  if y < 0 || x < 0 then none
  else ((g.getD y.toNat []).getD x.toNat none)

/-- Write a grid slot (callers only use in-range coordinates; `List.set` is a
no-op out of range, like JS assignment past a checked bound never happens). -/
def gridSet (g : Grid) (x y : Int) (v : Option Tile) : Grid :=
  if y < 0 || x < 0 then g
  else g.set y.toNat ((g.getD y.toNat []).set x.toNat v)

/-- Association-list lookup for the sparse `_indexData` array. -/
def lookupIndexData (l : List (Int × IndexData)) (i : Int) : Option IndexData :=
  (l.find? (fun p => p.1 == i)).map Prod.snd

/-- Association-list store for the sparse `_indexData` array. -/
def storeIndexData (l : List (Int × IndexData)) (i : Int) (d : IndexData) :
    List (Int × IndexData) :=
  (i, d) :: l.filter (fun p => p.1 != i)

/-- `TileLayer#applyDefaultTileRules(tile)`: if an `IndexData` entry with a
non-null `defaultCollideMask` exists for `tile.tileIndex`, clear the collide
and face regions and OR the mask in; otherwise leave the tile untouched.
(A negative `tileIndex` finds no entry unless one was explicitly stored,
exactly as a JS array property access.) -/
def applyDefaultTileRules (idx : List (Int × IndexData)) (t : Tile) : Tile :=
  match lookupIndexData idx t.tileIndex with
  | some d =>
    match d.defaultCollideMask with
    | some mask =>
      { t with tileFlags := jsAndNot (jsAndNot t.tileFlags COLLIDE_ALL) FACE_ALL ||| mask }
    | none => t
  | none => t

/-- `Tile#index` setter: negative resets the tile; a changed non-negative
index is written and the owning layer's default rules are applied (the
`_indexProperties` cache invalidation concerns an omitted field). -/
def tileIndexSet (idx : List (Int × IndexData)) (t : Tile) (v : Int) : Tile :=
  if v < 0 then t.resetToNonExistant
  else if v != t.tileIndex then
    applyDefaultTileRules idx { t with tileIndex := v }
  else t

/-- `TileLayer#_ensureTile(x, y)` as a value: `none` when the coordinates are
out of the `data`/row bounds (the source returns `null`), otherwise the stored
tile or a fresh `Tile(this, -1, x, y)`.  The store of the fresh tile into the
slot is performed by the callers' final writes. -/
def ensureTileVal (L : TileLayer) (x y : Int) : Option Tile :=
  if y < 0 || (L.data.length : Int) ≤ y then none
  else
    let row := L.data.getD y.toNat []
    if x < 0 || (row.length : Int) ≤ x then none
    else
      match row.getD x.toNat none with
      | some t => some t
      | none => some (mkTile (-1) x y)

/-- `TileLayer#clearCell(x, y)`: out-of-range is a guarded no-op; in range the
slot becomes `null` and `changeCount` is bumped. -/
def clearCell (L : TileLayer) (x y : Int) : TileLayer :=
  if y < 0 || (L.data.length : Int) ≤ y then L
  else
    let row := L.data.getD y.toNat []
    if x < 0 || (row.length : Int) ≤ x then L
    else { L with data := gridSet L.data x y none, changeCount := L.changeCount + 1 }

/-- `TileLayer#setCell(x, y, tileIndex, roleId?, alpha?)`.  For a non-negative
index the source dereferences the result of `_ensureTile` without a null
check, so out-of-range coordinates raise a TypeError (`none` here).  Default
rules are applied *before* the index write when the index changes; the index
write itself is a raw field assignment (not the `Tile#index` setter). -/
def setCell (L : TileLayer) (x y tileIndex : Int) (roleId : Option Int)
    (alpha : Option ℚ) : Option TileLayer :=
  if tileIndex > -1 then
    match ensureTileVal L x y with
    | none => none
    | some tile =>
      let tile := if tile.tileIndex != tileIndex then applyDefaultTileRules L.indexData tile else tile
      let tile := { tile with tileIndex := tileIndex }
      let tile := match roleId with | some r => { tile with roleId := r } | none => tile
      let tile := match alpha with | some a => { tile with alpha := a } | none => tile
      some { L with data := gridSet L.data x y (some tile), changeCount := L.changeCount + 1 }
  else
    some (clearCell L x y)

/-- `TileLayer#setCellFromTile(x, y, sourceTile)`: null or negative-index
source clears the cell; otherwise the ensured tile receives a `copyFrom` (the
source dereferences `_ensureTile`'s null on out-of-range coordinates, hence
`none`). -/
def setCellFromTile (L : TileLayer) (x y : Int) (sourceTile : Option Tile) :
    Option TileLayer :=
  match sourceTile with
  | some s =>
    if s.tileIndex > -1 then
      match ensureTileVal L x y with
      | none => none
      | some tile =>
        some { L with data := gridSet L.data x y (some (tile.copyFrom s false)),
                      changeCount := L.changeCount + 1 }
    else some (clearCell L x y)
  | none => some (clearCell L x y)

/-- `TileLayer#hasCell(x, y)`: bounds-guarded; true iff the slot holds a tile
with a non-negative index. -/
def hasCell (L : TileLayer) (x y : Int) : Bool :=
  if y < 0 || (L.data.length : Int) ≤ y then false
  else
    let row := L.data.getD y.toNat []
    if x < 0 || (row.length : Int) ≤ x then false
    else
      match row.getD x.toNat none with
      | some t => t.tileIndex > -1
      | none => false

/-- `TileLayer#getTileRef(x, y)`: bounds-guarded; the live stored tile or
null. -/
def getTileRef (L : TileLayer) (x y : Int) : Option Tile :=
  if y < 0 || (L.data.length : Int) ≤ y then none
  else
    let row := L.data.getD y.toNat []
    if x < 0 || (row.length : Int) ≤ x then none
    else row.getD x.toNat none

/-- `TileLayer#getTileCopy(x, y, forceMaterialize)`: bounds-guarded; a fresh
copy of the stored tile, a fresh absent tile under `forceMaterialize`, else
null. -/
def getTileCopy (L : TileLayer) (x y : Int) (forceMaterialize : Bool) :
    Option Tile :=
  if y < 0 || (L.data.length : Int) ≤ y then none
  else
    let row := L.data.getD y.toNat []
    if x < 0 || (row.length : Int) ≤ x then none
    else
      match row.getD x.toNat none with
      | some t => some ((mkTile (-1) x y).copyFrom t false)
      | none => if forceMaterialize then some (mkTile (-1) x y) else none

/-! ## Refresh / rule-propagation engine -/

/-- The grid sweep of `TileLayer#applyRules`: for every row below `height` and
every existing tile in it, `applyDefaultTileRules`.  Each iteration touches
only its own cell and reads nothing else, so the in-place source loop is a
per-cell map. -/
def applyRulesGrid (idx : List (Int × IndexData)) (g : Grid) (height : Int) : Grid :=
  g.mapIdx (fun y row =>
    if (y : Int) < height then row.map (Option.map (applyDefaultTileRules idx)) else row)

/-- `TileLayer#applyRules(force)`: suppress gate, optimistic staleness gate
(`_changeClearedAt.applyRules >= _changeCounts.ruleChanges`), then the sweep;
records the rule counter and bumps `changeCount`.  `ruleApplyRuns` is the
ghost run counter. -/
def applyRules (force : Bool) (L : TileLayer) : TileLayer :=
  if !force && L.suppressed then L
  else if !force && L.ruleChanges ≤ L.clearedApplyRules then L
  else
    { L with data := applyRulesGrid L.indexData L.data L.height,
             clearedApplyRules := L.ruleChanges,
             changeCount := L.changeCount + 1,
             ruleApplyRuns := L.ruleApplyRuns + 1 }

/-- `n && n.collideX` of the `calculateFaces` sweep: true iff the slot holds a
tile (of any index) whose given flag bit is set. -/
def hasCollideBit (g : Grid) (x y : Int) (bit : Nat) : Bool :=
  match gridGet g x y with
  | some n => n.tileFlags &&& bit != 0
  | none => false

/-- The per-tile flag update of `calculateFaces`: reset the face nibble to
mirror the collide nibble, then clear each face whose neighbor cull flag is
set. -/
def faceComp (f : Nat) (cu cd cl cr : Bool) : Nat :=
  let f := jsAndNot f FACE_ALL ||| ((f &&& COLLIDE_ALL) <<< 4)
  let f := if cu then jsAndNot f 0x80 else f
  let f := if cd then jsAndNot f 0x40 else f
  let f := if cl then jsAndNot f 0x20 else f
  let f := if cr then jsAndNot f 0x10 else f
  f

/-- One iteration of the `calculateFaces` double loop at row `p.1`, column
`p.2`: skip missing or negative-index tiles, otherwise recompute the tile's
face bits from its collide bits and the four neighbors' same-named collide
flags (`rowAbove[x].collideUp`, `rowBelow[x].collideDown`, `row[x-1].collideLeft`,
`row[x+1].collideRight`), reading the grid as it stands mid-sweep. -/
def calcFacesStep (g : Grid) (p : Nat × Nat) : Grid :=
  let y := p.1
  let x := p.2
  match gridGet g x y with
  | none => g
  | some t =>
    if t.tileIndex < 0 then g
    else
      let cu := hasCollideBit g x ((y : Int) - 1) 0x08
      let cd := hasCollideBit g x ((y : Int) + 1) 0x04
      let cl := hasCollideBit g ((x : Int) - 1) y 0x02
      let cr := hasCollideBit g ((x : Int) + 1) y 0x01
      gridSet g x y (some { t with tileFlags := faceComp t.tileFlags cu cd cl cr })

/-- Row-major iteration domain of the `calculateFaces` loops: `y` ranges below
`height`, `x` below that row's length (row lengths are not changed by the
sweep, so the domain is computed from the initial grid). -/
def rowMajorCells (g : Grid) (height : Int) : List (Nat × Nat) :=
  (List.range height.toNat).flatMap (fun y =>
    (List.range (g.getD y []).length).map (fun x => (y, x)))

/-- The full top-to-bottom, left-to-right sweep of `calculateFaces`. -/
def calcFacesSweep (g : Grid) (height : Int) : Grid :=
  (rowMajorCells g height).foldl calcFacesStep g

/-- `TileLayer#calculateFaces(force)`: suppress gate, staleness gate
(`_changeClearedAt.calculateFaces >= changeCount`), then the sweep; records
`changeCount` without bumping it.  `faceCalcRuns` is the ghost run counter. -/
def calculateFaces (force : Bool) (L : TileLayer) : TileLayer :=
  if !force && L.suppressed then L
  else if !force && L.changeCount ≤ L.clearedCalculateFaces then L
  else
    { L with data := calcFacesSweep L.data L.height,
             clearedCalculateFaces := L.changeCount,
             faceCalcRuns := L.faceCalcRuns + 1 }

/-- `TileLayer#refreshLayer(force)` : `applyRules` then `calculateFaces`. -/
def refreshLayer (force : Bool) (L : TileLayer) : TileLayer :=
  calculateFaces force (applyRules force L)

/-- `TileLayer#getTileIndexData(tileIndex, autoCreate)`: the existing entry,
or a freshly stored all-null entry when `autoCreate`, or JS `null`. -/
def getTileIndexDataM (L : TileLayer) (tileIndex : Int) (autoCreate : Bool) :
    TileLayer × Option IndexData :=
  match lookupIndexData L.indexData tileIndex with
  | some d => (L, some d)
  | none =>
    if autoCreate then
      let d : IndexData := ⟨none, none, none, none⟩
      ({ L with indexData := storeIndexData L.indexData tileIndex d }, some d)
    else (L, none)

/-- The per-index loop of `setDefaultCollisionFlags`: the source writes
`data.defaultCollideMask = collideFlags` on the result of
`getTileIndexData(index, needsCreate)` with no null guard, so when the entry
is absent and `needsCreate` is false (mask 0) it raises a TypeError (`none`).
Each touched index bumps `_changeCounts.ruleChanges`. -/
def setDefaultCollisionFlagsLoop (mask : Nat) (needsCreate : Bool) :
    List Int → TileLayer → Option TileLayer
  | [], L => some L
  | i :: rest, L =>
    let s := getTileIndexDataM L i needsCreate
    match s.2 with
    | none => none
    | some d =>
      setDefaultCollisionFlagsLoop mask needsCreate rest
        { s.1 with indexData := storeIndexData s.1.indexData i { d with defaultCollideMask := some mask },
                   ruleChanges := s.1.ruleChanges + 1 }

/-- `TileLayer#setDefaultCollisionFlags(tileIndexes, collideFlags,
applyImmediately)`: mask the flags to the collide range
(`collideFlags &= COLLIDE_ALL`, two's-complement like JS `&`), derive the face
bits (`collideFlags |= collideFlags << 4`), run the per-index loop, and apply
`refreshLayer(false)` once at the end when requested (`undefined` defaults to
true). -/
def setDefaultCollisionFlags (L : TileLayer) (tileIndexes : List Int)
    (collideFlags : Int) (applyImmediately : Option Bool) : Option TileLayer :=
  let applyNow := applyImmediately.getD true
  -- JS two's-complement `collideFlags & 0x0f` is the Euclidean remainder mod 16
  let mask := (collideFlags % 16).toNat
  let mask := mask ||| (mask <<< 4)
  let needsCreate := mask != 0
  match setDefaultCollisionFlagsLoop mask needsCreate tileIndexes L with
  | none => none
  | some L => some (if applyNow then refreshLayer false L else L)

/-! ## Roles -/

/-- `TileLayer#createTileRole(roleName)`: when the name map has no truthy
entry, a fresh role is pushed onto `_roleData` — but the source then stores
`null` (not the role) into `_rolesByName[roleName]`. -/
def createTileRole (L : TileLayer) (roleName : String) : TileLayer × TileRole :=
  match (L.rolesByName.find? (fun p => p.1 == roleName)).map Prod.snd with
  | some (some role) => (L, role)
  | _ =>
    let role : TileRole := { roleId := L.roleData.length, roleName := roleName }
    ({ L with roleData := L.roleData ++ [some role],
              rolesByName := (roleName, none) ::
                L.rolesByName.filter (fun p => p.1 != roleName) },
     role)

/-- `TileLayer#getTileRole(roleName)` : `this._rolesByName[roleName] || null`. -/
def getTileRole (L : TileLayer) (roleName : String) : Option TileRole :=
  match (L.rolesByName.find? (fun p => p.1 == roleName)).map Prod.snd with
  | some (some role) => some role
  | _ => none

/-! ## Region operations -/

/-- A tile-space rectangle (`Phaser.Rectangle` restricted to the integer
values these operations produce; `fitRectInLayer` applies `|0` truncation). -/
structure Rect where
  x : Int
  y : Int
  width : Int
  height : Int
  deriving Repr, DecidableEq

/-- `Phaser.Math.clamp(v, a, b)` — this utility is not under `src/`; it is
the standard Phaser clamp `v < a ? a : (v > b ? b : v)`. -/
def clamp (v lo hi : Int) : Int := if v < lo then lo else if v > hi then hi else v

/-- `TileLayer#fitRectInLayer(rect)`: truncate the origin, and for a negative
origin component the source does `rect.width -= rect.x` (which *adds* `|x|`)
before zeroing it; then clamp both extents to `[0, dimension - origin]`. -/
def fitRectInLayer (L : TileLayer) (rect : Rect) : Rect :=
  let x := if rect.x < 0 then (0 : Int) else rect.x
  let width := if rect.x < 0 then rect.width - rect.x else rect.width
  let y := if rect.y < 0 then (0 : Int) else rect.y
  let height := if rect.y < 0 then rect.height - rect.y else rect.height
  { x := x, y := y,
    width := clamp width 0 (L.width - x),
    height := clamp height 0 (L.height - y) }

/-- `[a, b)` as a list of integers. -/
def intRange (a b : Int) : List Int :=
  (List.range (b - a).toNat).map (fun k : Nat => a + (k : Int))

/-- `TileLayer#getTilesEx(x, y, width, height, buffer, forceMaterialize,
forceCopy)`: clamp the region to `max 0` / `min` with the layer dimensions,
then row-major over the region (bounded also by each row's length): absent
cells yield `null` unless materialized as fresh `Tile(this, -1, tx, ty)`;
existing cells yield the live reference unless `forceCopy` clones
disconnected.  The `buffer` reuse/trimming of the source only recycles array
storage and is immaterial to the produced sequence. -/
def getTilesEx (L : TileLayer) (x y width height : Int)
    (forceMaterialize forceCopy : Bool) : List (Option Tile) :=
  let x := max x 0
  let y := max y 0
  let ex := min (x + width) L.width
  let ey := min (y + height) L.height
  (intRange y ey).flatMap (fun ty =>
    let row := L.data.getD ty.toNat []
    (intRange x (min ex (row.length : Int))).map (fun tx =>
      match row.getD tx.toNat none with
      | none => if forceMaterialize then some (mkTile (-1) tx ty) else none
      | some t => if forceCopy then some (t.clone true) else some t))

/-- The write-back loop of `transformRegion`: each entry is written via
`setCellFromTile(tile.x, tile.y, tile)`; a `null` entry raises a TypeError at
`tile.x` (`none`). -/
def writeBackTiles : List (Option Tile) → TileLayer → Option TileLayer
  | [], L => some L
  | none :: _, _ => none
  | some t :: rest, L =>
    match setCellFromTile L t.x t.y (some t) with
    | none => none
    | some L => writeBackTiles rest L

/-- `TileLayer#transformRegion(rect, callback, context, args,
forceMaterialize)`: fit the rect, extract live (non-copy) tiles, run the
callback once (its `context`/extra `args` are captured in the Lean closure; a
callback exception is `none`), write every entry back, then
`refreshLayer(false)`. -/
def transformRegion (L : TileLayer) (rect : Rect)
    (callback : List (Option Tile) → Option (List (Option Tile)))
    (forceMaterialize : Bool) : Option TileLayer :=
  let r := fitRectInLayer L rect
  let tiles := getTilesEx L r.x r.y r.width r.height forceMaterialize false
  match callback tiles with
  | none => none
  | some tiles =>
    match writeBackTiles tiles L with
    | none => none
    | some L => some (refreshLayer false L)

/-- The record `copyTiles` returns: `{layer, rect, tiles}`.  The `layer`
back-reference is omitted (nothing embedded reads it).  Note there is *no*
`buffer` field. -/
structure CopyData where
  rect : Rect
  tiles : List (Option Tile)
  deriving Repr, DecidableEq

/-- `TileLayer#copyTiles(rect, buffer, forceMaterialize=true)`: a disconnected
snapshot (`forceCopy` true) of the fitted region. -/
def copyTiles (L : TileLayer) (rect : Rect) (forceMaterialize : Option Bool) :
    CopyData :=
  let fm := forceMaterialize.getD true
  let r := fitRectInLayer L rect
  { rect := r, tiles := getTilesEx L r.x r.y r.width r.height fm true }

/-- The value `pasteTiles` would produce: the early exit returns the number 0,
the normal path a boolean. -/
inductive PasteResult where
  | zero : PasteResult
  | flag : Bool → PasteResult
  deriving Repr, DecidableEq

/-- `TileLayer#pasteTiles(copyData, x, y, offset)`.  Its first statement is
`if (!copyData || !copyData.buffer.length) { return 0; }`: a null `copyData`
returns 0, but any actual `copyData` (the `{layer, rect, tiles}` record built
by `copyTiles`) has no `buffer` field, so `copyData.buffer` is `undefined` and
reading `.length` raises a TypeError (`none`) before any paste happens.  (The
unreachable remainder of the function would also default a missing `y` to
`copyData.rect.x` and return `(copyData.width * copyData.height) === pasteCount`,
i.e. `NaN === pasteCount`, which is always false.) -/
def pasteTiles (L : TileLayer) (copyData : Option CopyData) (_x _y : Option Int)
    (_offset : Option Nat) : Option (TileLayer × PasteResult) :=
  match copyData with
  | none => some (L, .zero)
  | some _ => none

/-! ## Tilemap region transforms (`shuffle`) -/

/-- First loop of `Tilemap#_shuffleTransform`: `indexes.push(tile.index)` for
every entry; a `null` entry raises a TypeError (`none`). -/
def collectIndexes : List (Option Tile) → Option (List Int)
  | [] => some []
  | none :: _ => none
  | some t :: rest => (collectIndexes rest).map (t.tileIndex :: ·)

/-- Second loop of `Tilemap#_shuffleTransform`: `tile.index = indexes[i]`
positionally, through the `Tile#index` setter.  The index list always has the
same length as the tile list (the shuffle permutes the list collected from
these very tiles); a mismatch would make the source read `undefined` past the
end, so it is mapped to `none`. -/
def assignIndexes (idx : List (Int × IndexData)) :
    List (Option Tile) → List Int → Option (List (Option Tile))
  | [], _ => some []
  | none :: _, _ => none
  | some t :: rest, v :: vs =>
    (assignIndexes idx rest vs).map (some (tileIndexSet idx t v) :: ·)
  | some _ :: _, [] => none

/-- `Tilemap#_shuffleTransform(tiles)`: collect the per-tile indexes, permute
them, reassign positionally.  `shuffleFn` is the outcome of
`Phaser.Utils.shuffle`, which is not under `src/`.  Modelled from the spec:
"permutes the list (uniform random shuffle)" — the theorems quantify over any
outcome that is a permutation. -/
def shuffleTransform (idx : List (Int × IndexData)) (shuffleFn : List Int → List Int)
    (tiles : List (Option Tile)) : Option (List (Option Tile)) :=
  match collectIndexes tiles with
  | none => none
  | some indexes => assignIndexes idx tiles (shuffleFn indexes)

/-- `Tilemap#shuffle(x, y, width, height, layer)` on its layer:
`layer.transformRegion(rect, this._shuffleTransform, this, null, true)`. -/
def shuffleRegion (L : TileLayer) (shuffleFn : List Int → List Int) (rect : Rect) :
    Option TileLayer :=
  transformRegion L rect (shuffleTransform L.indexData shuffleFn) true

/-! ## Tile collision-test dispatch (`Tile.js`)

`Tile#setCollisionTest` stores a handler array `[callback, context || null,
...extraArgs]`; `Tile#doTileCollisionTest(collider)` dispatches on it.  The
JS callback is modelled as a function of the context (`this` of
`.call`/`.apply`) and of the raw argument list it receives, so that *which*
arguments the source passes is observable. -/

/-- An element of the argument list a collision callback receives: the
collider, the tile itself (`this`), or one of the extra arguments. -/
inductive CallArg (κ ε : Type) where
  | collider : κ → CallArg κ ε
  | tileSelf : CallArg κ ε
  | extra : ε → CallArg κ ε
  deriving Repr, DecidableEq

/-- The stored `_collisionTest` handler array `[callback, context, ...args]`:
`extraArgs` is `handler.slice(2)`, and `handler.length <= 2` iff it is empty. -/
structure CollisionHandler (κ γ ε ρ : Type) where
  callback : Option γ → List (CallArg κ ε) → ρ
  context : Option γ
  extraArgs : List ε

/-- Result of `doTileCollisionTest`: the string sentinel `"pass"` or the
callback's return value. -/
inductive TestResult (ρ : Type) where
  | pass : TestResult ρ
  | value : ρ → TestResult ρ
  deriving Repr, DecidableEq

/-- `Tile#setCollisionTest(callback, context, ...args)`: a truthy callback
stores `[callback, context || null, ...args]` (via `setSharedCollisionTest`,
which also sets the `HAS_COLLISION_TEST` flag bit, not observed here); a null
callback clears the handler. -/
def setCollisionTest (callback : Option (Option γ → List (CallArg κ ε) → ρ))
    (context : Option γ) (extraArgs : List ε) :
    Option (CollisionHandler κ γ ε ρ) :=
  match callback with
  | some cb => some { callback := cb, context := context, extraArgs := extraArgs }
  | none => none

/-- `Tile#doTileCollisionTest(collider)` over the two tile fields it reads
(`_collisionTest` and `tileIndex`): `"pass"` when there is no handler or the
index is negative; the fast path calls `handler[0].call(handler[1], collider,
this)`; the slow path builds `args = [collider, this]`, evaluates
`args.concat(handler.slice(2))` — whose result the source DISCARDS — and then
applies the callback to `args`, so the extra arguments are never passed. -/
def doTileCollisionTest (tileIndex : Int)
    (handler : Option (CollisionHandler κ γ ε ρ)) (collider : κ) : TestResult ρ :=
  match handler with
  | none => .pass
  | some h =>
    if tileIndex < 0 then .pass
    else if h.extraArgs.length = 0 then
      .value (h.callback h.context [.collider collider, .tileSelf])
    else
      let args : List (CallArg κ ε) := [.collider collider, .tileSelf]
      let _ := args ++ h.extraArgs.map CallArg.extra
      .value (h.callback h.context args)

/-! ## Well-formedness and observation helpers -/

/-- Well-formedness of a stored slot at column `x` of row `y`: a stored tile
records its own coordinates, its index is at least `-1`, and a non-existent
stored tile has no flags (all of which hold for every layer reachable through
the public API: `_ensureTile` seeds `Tile(this, -1, x, y)` with zero flags,
`copyFrom` keeps `x`/`y`, and `resetToNonExistant` zeroes the flags). -/
def tileAtWF (x y : Nat) : Option Tile → Prop
  | some t => t.x = (x : Int) ∧ t.y = (y : Int) ∧ -1 ≤ t.tileIndex ∧
      (t.tileIndex < 0 → t.tileFlags = 0)
  | none => True

instance (x y : Nat) (o : Option Tile) : Decidable (tileAtWF x y o) :=
  match o with
  | some _ => inferInstanceAs (Decidable (_ ∧ _ ∧ _ ∧ _))
  | none => isTrue trivial

/-- Well-formedness of a layer: non-negative dimensions, a `height × width`
grid, and well-formed slots. -/
def layerWF (L : TileLayer) : Prop :=
  0 ≤ L.width ∧ 0 ≤ L.height ∧ L.data.length = L.height.toNat ∧
  ∀ y ∈ List.range L.data.length,
    (L.data.getD y []).length = L.width.toNat ∧
    ∀ x ∈ List.range (L.data.getD y []).length,
      tileAtWF x y ((L.data.getD y []).getD x none)

instance (L : TileLayer) : Decidable (layerWF L) := by
  unfold layerWF
  infer_instance

/-- The index stored at a cell, reading an absent slot (or an out-of-range
coordinate) as the non-existent index `-1`. -/
def cellIndexAt (L : TileLayer) (x y : Int) : Int :=
  match gridGet L.data x y with
  | some t => t.tileIndex
  | none => -1

/-- Row-major list of the cell coordinates of a rectangle. -/
def regionCells (r : Rect) : List (Int × Int) :=
  (intRange r.y (r.y + r.height)).flatMap (fun ty =>
    (intRange r.x (r.x + r.width)).map (fun tx => (tx, ty)))

/-- Row-major list of the per-cell indexes of a rectangle. -/
def regionIndexes (L : TileLayer) (r : Rect) : List Int :=
  (regionCells r).map (fun p => cellIndexAt L p.1 p.2)

/-- Whether a rectangle covers a cell, as the spec reads regions:
`x ≤ cx < x + width`, `y ≤ cy < y + height`. -/
def specRectCoversCell (r : Rect) (cx cy : Int) : Prop :=
  r.x ≤ cx ∧ cx < r.x + r.width ∧ r.y ≤ cy ∧ cy < r.y + r.height

instance (r : Rect) (cx cy : Int) : Decidable (specRectCoversCell r cx cy) :=
  inferInstanceAs (Decidable (_ ∧ _ ∧ _ ∧ _))

/-! ## Bit-level lemmas about the flag mask operations -/

/-- `jsAndNot` clears exactly the mask's bits (below the 32-bit width). -/
theorem testBit_jsAndNot (a m : Nat) (i : Nat) (h : i < 32) :
    (jsAndNot a m).testBit i = (a.testBit i && !(m.testBit i)) := by
  have h32 : (0xFFFFFFFF : Nat) = 2 ^ 32 - 1 := by norm_num
  rw [jsAndNot, Nat.testBit_land, Nat.testBit_xor, h32, Nat.testBit_two_pow_sub_one]
  simp [h]

/-- Face-top bit of the recomputed flags: the collide-up bit unless culled. -/
theorem faceComp_testBit7 (f : Nat) (cu cd cl cr : Bool) :
    (faceComp f cu cd cl cr).testBit 7 = (f.testBit 3 && !cu) := by
  unfold faceComp FACE_ALL COLLIDE_ALL
  cases cu <;> cases cd <;> cases cl <;> cases cr <;>
    simp [testBit_jsAndNot, Nat.testBit_lor, Nat.testBit_land, Nat.testBit_shiftLeft,
      (by decide : Nat.testBit 240 7 = true), (by decide : Nat.testBit 128 7 = true),
      (by decide : Nat.testBit 64 7 = false), (by decide : Nat.testBit 32 7 = false),
      (by decide : Nat.testBit 16 7 = false), (by decide : Nat.testBit 15 3 = true)]

/-- Face-bottom bit of the recomputed flags. -/
theorem faceComp_testBit6 (f : Nat) (cu cd cl cr : Bool) :
    (faceComp f cu cd cl cr).testBit 6 = (f.testBit 2 && !cd) := by
  unfold faceComp FACE_ALL COLLIDE_ALL
  cases cu <;> cases cd <;> cases cl <;> cases cr <;>
    simp [testBit_jsAndNot, Nat.testBit_lor, Nat.testBit_land, Nat.testBit_shiftLeft,
      (by decide : Nat.testBit 240 6 = true), (by decide : Nat.testBit 128 6 = false),
      (by decide : Nat.testBit 64 6 = true), (by decide : Nat.testBit 32 6 = false),
      (by decide : Nat.testBit 16 6 = false), (by decide : Nat.testBit 15 2 = true)]

/-- Face-left bit of the recomputed flags. -/
theorem faceComp_testBit5 (f : Nat) (cu cd cl cr : Bool) :
    (faceComp f cu cd cl cr).testBit 5 = (f.testBit 1 && !cl) := by
  unfold faceComp FACE_ALL COLLIDE_ALL
  cases cu <;> cases cd <;> cases cl <;> cases cr <;>
    simp [testBit_jsAndNot, Nat.testBit_lor, Nat.testBit_land, Nat.testBit_shiftLeft,
      (by decide : Nat.testBit 240 5 = true), (by decide : Nat.testBit 128 5 = false),
      (by decide : Nat.testBit 64 5 = false), (by decide : Nat.testBit 32 5 = true),
      (by decide : Nat.testBit 16 5 = false), (by decide : Nat.testBit 15 1 = true)]

/-- Face-right bit of the recomputed flags. -/
theorem faceComp_testBit4 (f : Nat) (cu cd cl cr : Bool) :
    (faceComp f cu cd cl cr).testBit 4 = (f.testBit 0 && !cr) := by
  unfold faceComp FACE_ALL COLLIDE_ALL
  cases cu <;> cases cd <;> cases cl <;> cases cr <;>
    simp [testBit_jsAndNot, Nat.testBit_lor, Nat.testBit_land, Nat.testBit_shiftLeft,
      (by decide : Nat.testBit 240 4 = true), (by decide : Nat.testBit 128 4 = false),
      (by decide : Nat.testBit 64 4 = false), (by decide : Nat.testBit 32 4 = false),
      (by decide : Nat.testBit 16 4 = true), (by decide : Nat.testBit 15 0 = true)]

/-- The collide nibble is untouched by the face recomputation. -/
theorem faceComp_testBit_low (f : Nat) (cu cd cl cr : Bool) (i : Nat) (h : i < 4) :
    (faceComp f cu cd cl cr).testBit i = f.testBit i := by
  unfold faceComp FACE_ALL COLLIDE_ALL
  have h240 : Nat.testBit 240 i = false := by interval_cases i <;> decide
  have h128 : Nat.testBit 128 i = false := by interval_cases i <;> decide
  have h64 : Nat.testBit 64 i = false := by interval_cases i <;> decide
  have h32 : Nat.testBit 32 i = false := by interval_cases i <;> decide
  have h16 : Nat.testBit 16 i = false := by interval_cases i <;> decide
  have hge : ¬ (4 ≤ i) := by omega
  have hlt : i < 32 := by omega
  cases cu <;> cases cd <;> cases cl <;> cases cr <;>
    simp [testBit_jsAndNot, Nat.testBit_lor, Nat.testBit_land, Nat.testBit_shiftLeft,
      h240, h128, h64, h32, h16, hge, hlt]

/-- A flag test `f &&& 2^k != 0` is the `k`-th bit. -/
theorem land_two_pow_ne_zero (f k : Nat) : (f &&& 2 ^ k != 0) = f.testBit k := by
  rw [Nat.and_two_pow]
  cases h : f.testBit k <;> simp [h]

/-! ## Concrete layers used by the claim theorems -/

/-- A 2×1 layer holding an index-3 tile at `(0,0)` and an absent cell at
`(1,0)`. -/
def sampleLayer : TileLayer :=
  (setCell (mkTileLayer 2 1) 0 0 3 none none).getD (mkTileLayer 2 1)

/-- An empty 10×10 layer. -/
def layer10 : TileLayer := mkTileLayer 10 10

/-! ## Claim theorems -/

/-- C2: the claim states that `copyTiles(rect)` followed by `pasteTiles` of
the returned copy data writes the snapshot back and returns true.  In fact
`pasteTiles`'s guard reads `copyData.buffer.length`, and the record returned
by `copyTiles` is `{layer, rect, tiles}` with no `buffer` field, so every
such call raises a TypeError before pasting anything (a null `copyData`
returns 0 instead). -/
theorem c2_copy_paste_roundtrip_throws :
    pasteTiles sampleLayer (some (copyTiles sampleLayer ⟨0, 0, 2, 1⟩ none)) none none none
      = none ∧
    pasteTiles sampleLayer none none none none = some (sampleLayer, .zero) :=
  ⟨rfl, rfl⟩

/-- C3: out-of-range coordinates: `clearCell`, `hasCell`, `getTileRef`,
`getTileCopy` (and `setCell` with a negative index) are guarded no-ops, but
`setCell` and `setCellFromTile` with a storable index dereference the null
returned by `_ensureTile` and raise a TypeError, contradicting the claim that
every cell accessor completes without throwing. -/
theorem c3_out_of_range_accessors :
    setCell sampleLayer (-1) 0 5 none none = none ∧
    setCell sampleLayer 2 0 5 none none = none ∧
    setCellFromTile sampleLayer 0 (-1) (some (mkTile 2 1 1)) = none ∧
    clearCell sampleLayer 5 0 = sampleLayer ∧
    setCell sampleLayer (-1) 0 (-1) none none = some sampleLayer ∧
    hasCell sampleLayer 0 5 = false ∧
    getTileRef sampleLayer (-3) 0 = none ∧
    getTileCopy sampleLayer 0 2 true = none := by
  decide

/-- C4: with `forceMaterialize` false the extraction does hand the callback a
`null` entry for the absent cell `(1,0)`, but when the callback leaves that
entry null the write-back loop dereferences `tile.x` on it and raises a
TypeError, so the operation does not complete normally as the claim states. -/
theorem c4_transform_null_entry_throws :
    getTilesEx sampleLayer 0 0 2 1 false false = [some (mkTile 3 0 0), none] ∧
    transformRegion sampleLayer ⟨0, 0, 2, 1⟩ (fun ts => some ts) false = none := by
  decide

/-- C6: the claim states `fitRectInLayer` returns the intersection with the
layer, never covering cells the input did not cover.  For a negative origin
the source does `rect.width -= rect.x`, *growing* the width by `|x|` instead
of shrinking it: the rectangle `(-3, 0, 5, 1)` in a 10×10 layer becomes
`(0, 0, 8, 1)`, which covers cell `(4,0)` although the input only covered
columns `-3..1`. -/
theorem c6_fitRect_expands :
    fitRectInLayer layer10 ⟨-3, 0, 5, 1⟩ = ⟨0, 0, 8, 1⟩ ∧
    specRectCoversCell (fitRectInLayer layer10 ⟨-3, 0, 5, 1⟩) 4 0 ∧
    ¬ specRectCoversCell ⟨-3, 0, 5, 1⟩ 4 0 := by
  decide

/-- C7: the claim covers flag values that mask to zero, but then
`needsCreate` is false, `getTileIndexData` returns null for an index with no
existing entry, and the unguarded `data.defaultCollideMask = collideFlags`
raises a TypeError.  (For a non-zero mask the entry is created and stored
with the face bits derived, bumping the rule counter once.) -/
theorem c7_zero_mask_throws :
    setDefaultCollisionFlags (mkTileLayer 1 1) [5] 0 none = none ∧
    (setDefaultCollisionFlags (mkTileLayer 1 1) [1] 15 (some false)).map
      (fun M => (lookupIndexData M.indexData 1, M.ruleChanges)) =
      some (some ⟨some 255, none, none, none⟩, 1) := by
  decide

/-- C9: `doTileCollisionTest` does return `"pass"` without a handler or with
a negative index, and does call the callback on the stored context — but the
slow path discards the result of `args.concat(handler.slice(2))`, so a
callback registered with an extra argument receives only `(collider, this)`,
not the extra argument the claim promises. -/
theorem c9_extra_args_dropped :
    doTileCollisionTest 1
      (setCollisionTest (κ := Nat) (γ := Nat) (ρ := List (CallArg Nat Nat))
        (some (fun _ args => args)) (some 0) [7]) 5 =
      .value [.collider 5, .tileSelf] ∧
    (TestResult.value [CallArg.collider 5, CallArg.tileSelf] ≠
      (.value [.collider 5, .tileSelf, .extra 7] : TestResult (List (CallArg Nat Nat)))) ∧
    doTileCollisionTest (-1)
      (setCollisionTest (κ := Nat) (γ := Nat) (ρ := List (CallArg Nat Nat))
        (some (fun _ args => args)) (some 0) [7]) 5 = .pass ∧
    doTileCollisionTest (κ := Nat) (γ := Nat) (ε := Nat)
      (ρ := List (CallArg Nat Nat)) 1 none 5 = .pass :=
  ⟨rfl, by decide, rfl, rfl⟩

/-- C10: `createTileRole` pushes the new role onto `_roleData` but stores
`null` into `_rolesByName[roleName]`, so `getTileRole` never finds the role
and a second `createTileRole` with the same name pushes a second entry with
the same name, contradicting the claimed name registration and uniqueness. -/
theorem c10_role_name_not_registered :
    getTileRole (createTileRole (mkTileLayer 2 2) "solid").1 "solid" = none ∧
    ((createTileRole (createTileRole (mkTileLayer 2 2) "solid").1 "solid").1.roleData.filter
      (fun o => match o with | some r => r.roleName == "solid" | none => false)).length
      = 2 := by
  decide

theorem applyRules_skip_sup {L : TileLayer} (h : L.suppressed = true) :
    applyRules false L = L := by
  unfold applyRules
  simp [h]

theorem applyRules_skip_clean {L : TileLayer} (h : L.ruleChanges ≤ L.clearedApplyRules) :
    applyRules false L = L := by
  unfold applyRules
  by_cases hs : L.suppressed <;> simp [hs, h]

theorem calculateFaces_skip_sup {L : TileLayer} (h : L.suppressed = true) :
    calculateFaces false L = L := by
  unfold calculateFaces
  simp [h]

theorem calculateFaces_skip_clean {L : TileLayer}
    (h : L.changeCount ≤ L.clearedCalculateFaces) : calculateFaces false L = L := by
  unfold calculateFaces
  by_cases hs : L.suppressed <;> simp [hs, h]

theorem applyRules_suppressed (f : Bool) (L : TileLayer) :
    (applyRules f L).suppressed = L.suppressed := by
  unfold applyRules
  split_ifs <;> rfl

theorem applyRules_ruleChanges (f : Bool) (L : TileLayer) :
    (applyRules f L).ruleChanges = L.ruleChanges := by
  unfold applyRules
  split_ifs <;> rfl

theorem applyRules_false_cleared {L : TileLayer} (h : L.suppressed = false) :
    (applyRules false L).ruleChanges ≤ (applyRules false L).clearedApplyRules := by
  unfold applyRules
  split_ifs with h1 h2
  · simp_all
  · simpa using h2
  · exact le_rfl

theorem calculateFaces_suppressed (f : Bool) (L : TileLayer) :
    (calculateFaces f L).suppressed = L.suppressed := by
  unfold calculateFaces
  split_ifs <;> rfl

theorem calculateFaces_ruleChanges (f : Bool) (L : TileLayer) :
    (calculateFaces f L).ruleChanges = L.ruleChanges := by
  unfold calculateFaces
  split_ifs <;> rfl

theorem calculateFaces_clearedApplyRules (f : Bool) (L : TileLayer) :
    (calculateFaces f L).clearedApplyRules = L.clearedApplyRules := by
  unfold calculateFaces
  split_ifs <;> rfl

theorem calculateFaces_false_cleared {L : TileLayer} (h : L.suppressed = false) :
    (calculateFaces false L).changeCount ≤ (calculateFaces false L).clearedCalculateFaces := by
  unfold calculateFaces
  split_ifs with h1 h2
  · simp_all
  · simpa using h2
  · exact le_rfl

/-- C5: calling `refreshLayer(false)` twice in a row with no intervening
mutation leaves the layer bit-for-bit unchanged the second time — including
`changeCount` and the ghost run counters `ruleApplyRuns`/`faceCalcRuns`, so
neither the rule pass nor the face pass executes its body again (each is
stopped by its own gate). -/
theorem c5_refresh_idempotent (L : TileLayer) :
    refreshLayer false (refreshLayer false L) = refreshLayer false L := by
  by_cases hs : L.suppressed
  · have h1 := applyRules_skip_sup hs
    have h2 := calculateFaces_skip_sup hs
    unfold refreshLayer
    rw [h1, h2, h1, h2]
  · have hs' : L.suppressed = false := by simpa using hs
    have hA : (applyRules false L).suppressed = false := by
      rw [applyRules_suppressed]; exact hs'
    have hM : (calculateFaces false (applyRules false L)).suppressed = false := by
      rw [calculateFaces_suppressed]; exact hA
    have hrule : (calculateFaces false (applyRules false L)).ruleChanges ≤
        (calculateFaces false (applyRules false L)).clearedApplyRules := by
      rw [calculateFaces_ruleChanges, calculateFaces_clearedApplyRules]
      exact applyRules_false_cleared hs'
    have hface := calculateFaces_false_cleared hA
    unfold refreshLayer
    rw [applyRules_skip_clean hrule]
    rw [calculateFaces_skip_clean]
    exact hface

/-! ## Grid access lemmas -/

theorem gridGet_natCast (g : Grid) (x y : Nat) :
    gridGet g (x : Int) (y : Int) = (g.getD y []).getD x none := by
  unfold gridGet
  simp

theorem gridSet_natCast (g : Grid) (x y : Nat) (v : Option Tile) :
    gridSet g (x : Int) (y : Int) v = g.set y ((g.getD y []).set x v) := by
  unfold gridSet
  simp

theorem gridSet_length (g : Grid) (x y : Int) (v : Option Tile) :
    (gridSet g x y v).length = g.length := by
  unfold gridSet
  split <;> simp

theorem gridSet_rowLength (g : Grid) (x y : Int) (v : Option Tile) (k : Nat) :
    ((gridSet g x y v).getD k []).length = (g.getD k []).length := by
  unfold gridSet
  split
  · rfl
  · by_cases hk : y.toNat = k
    · subst hk
      by_cases hlen : y.toNat < g.length
      · simp [List.getD_eq_getElem?_getD, List.getElem?_set_self hlen]
      · rw [List.set_eq_of_length_le (by omega)]
    · simp [List.getD_eq_getElem?_getD, List.getElem?_set_ne hk]

theorem gridGet_gridSet_self (g : Grid) (x y : Nat) (v : Option Tile)
    (hy : y < g.length) (hx : x < (g.getD y []).length) :
    gridGet (gridSet g (x : Int) (y : Int) v) (x : Int) (y : Int) = v := by
  rw [gridSet_natCast, gridGet_natCast]
  have hrow : (g.set y ((g.getD y []).set x v)).getD y [] = (g.getD y []).set x v := by
    simp [List.getD_eq_getElem?_getD, List.getElem?_set_self hy]
  rw [hrow]
  simp [List.getD_eq_getElem?_getD, List.getElem?_set_self (by simpa using hx)]

theorem gridGet_gridSet_ne (g : Grid) (x y : Nat) (v : Option Tile) (x' y' : Int)
    (h : ¬(x' = (x : Int) ∧ y' = (y : Int))) :
    gridGet (gridSet g (x : Int) (y : Int) v) x' y' = gridGet g x' y' := by
  rw [gridSet_natCast]
  unfold gridGet
  by_cases hneg : y' < 0 || x' < 0
  · simp [hneg]
  · simp only [hneg, Bool.false_eq_true, if_false]
    have hy' : 0 ≤ y' := by
      rcases Bool.or_eq_false_iff.mp (Bool.not_eq_true _ ▸ hneg) with ⟨h1, _⟩
      simpa using of_decide_eq_false h1
    have hx' : 0 ≤ x' := by
      rcases Bool.or_eq_false_iff.mp (Bool.not_eq_true _ ▸ hneg) with ⟨_, h2⟩
      simpa using of_decide_eq_false h2
    by_cases hyy : y'.toNat = y
    · have hxx : x'.toNat ≠ x := by
        intro hc
        exact h ⟨by omega, by omega⟩
      subst hyy
      by_cases hlen : y'.toNat < g.length
      · simp [List.getD_eq_getElem?_getD, List.getElem?_set_self hlen,
          List.getElem?_set_ne (Ne.symm hxx)]
      · rw [List.set_eq_of_length_le (by omega)]
    · simp [List.getD_eq_getElem?_getD, List.getElem?_set_ne (Ne.symm hyy)]

/-! ## The face-calculation sweep: simulation machinery

`calculateFaces` mutates the grid while reading neighbor collide flags from
it, so the correctness argument tracks that every step preserves cell
occupancy, tile indexes and the collide nibble at every cell, and rewrites
exactly its own cell's face bits. -/

/-- Two tiles agreeing on index and on the collide nibble (bits 0–3). -/
def simTile (t₀ t : Tile) : Prop :=
  t.tileIndex = t₀.tileIndex ∧ ∀ i < 4, t.tileFlags.testBit i = t₀.tileFlags.testBit i

/-- Slot-wise lifting of `simTile` (same occupancy). -/
def simCell : Option Tile → Option Tile → Prop
  | none, none => True
  | some t₀, some t => simTile t₀ t
  | _, _ => False

/-- Grid-wise lifting of `simCell`. -/
def simGrid (g₀ g : Grid) : Prop := ∀ x y : Int, simCell (gridGet g₀ x y) (gridGet g x y)

theorem simTile_refl (t : Tile) : simTile t t := ⟨rfl, fun _ _ => rfl⟩

theorem simGrid_refl (g : Grid) : simGrid g g := by
  intro x y
  cases gridGet g x y <;> first | trivial | exact simTile_refl _

/-- Neighbor cull reads only depend on occupancy and the collide nibble. -/
theorem hasCollideBit_sim {g₀ g : Grid} (h : simGrid g₀ g) (x y : Int) (b k : Nat)
    (hb : b = 2 ^ k) (hk : k < 4) : hasCollideBit g x y b = hasCollideBit g₀ x y b := by
  have hc := h x y
  unfold hasCollideBit
  rcases h0 : gridGet g₀ x y with _ | t₀ <;> rcases h1 : gridGet g x y with _ | t
  · rfl
  · rw [h0, h1] at hc; exact (hc : False).elim
  · rw [h0, h1] at hc; exact (hc : False).elim
  · rw [h0, h1] at hc
    have hc' : simTile t₀ t := hc
    show (t.tileFlags &&& b != 0) = (t₀.tileFlags &&& b != 0)
    rw [hb, land_two_pow_ne_zero, land_two_pow_ne_zero, hc'.2 k hk]

/-- The face flags `calculateFaces` computes for a cell, as a function of the
grid the culls are read from. -/
def faceSpecFlags (g : Grid) (x y : Nat) (f : Nat) : Nat :=
  faceComp f (hasCollideBit g (x : Int) ((y : Int) - 1) 0x08)
    (hasCollideBit g (x : Int) ((y : Int) + 1) 0x04)
    (hasCollideBit g ((x : Int) - 1) (y : Int) 0x02)
    (hasCollideBit g ((x : Int) + 1) (y : Int) 0x01)

theorem faceSpecFlags_sim {g₀ g : Grid} (h : simGrid g₀ g) (x y : Nat) (f : Nat) :
    faceSpecFlags g x y f = faceSpecFlags g₀ x y f := by
  unfold faceSpecFlags
  rw [hasCollideBit_sim h _ _ 0x08 3 (by norm_num) (by norm_num),
    hasCollideBit_sim h _ _ 0x04 2 (by norm_num) (by norm_num),
    hasCollideBit_sim h _ _ 0x02 1 (by norm_num) (by norm_num),
    hasCollideBit_sim h _ _ 0x01 0 (by norm_num) (by norm_num)]

/-- The flags low nibble survives the face recomputation. -/
theorem faceComp_low_nibble (f : Nat) (cu cd cl cr : Bool) (i : Nat) (h : i < 4) :
    (faceComp f cu cd cl cr).testBit i = f.testBit i :=
  faceComp_testBit_low f cu cd cl cr i h

/-- The value a processed cell holds after the whole sweep: missing and
non-existent cells are untouched; existing tiles get `faceSpecFlags` read
against the sweep's start grid. -/
def procSpec (g₀ : Grid) (p : Nat × Nat) : Option Tile :=
  match gridGet g₀ (p.2 : Int) (p.1 : Int) with
  | none => none
  | some t =>
    if t.tileIndex < 0 then some t
    else some { t with tileFlags := faceSpecFlags g₀ p.2 p.1 t.tileFlags }

theorem calcFacesStep_frame (g : Grid) (p : Nat × Nat) (x' y' : Int)
    (h : ¬(x' = (p.2 : Int) ∧ y' = (p.1 : Int))) :
    gridGet (calcFacesStep g p) x' y' = gridGet g x' y' := by
  rcases hg : gridGet g (p.2 : Int) (p.1 : Int) with _ | t
  · unfold calcFacesStep
    simp only [hg]
  · by_cases ht : t.tileIndex < 0
    · unfold calcFacesStep
      simp only [hg, if_pos ht]
    · unfold calcFacesStep
      simp only [hg, if_neg ht]
      exact gridGet_gridSet_ne g p.2 p.1 _ x' y' h

theorem calcFacesStep_self (g : Grid) (p : Nat × Nat)
    (hy : p.1 < g.length) (hx : p.2 < (g.getD p.1 []).length) :
    gridGet (calcFacesStep g p) (p.2 : Int) (p.1 : Int) = procSpec g p := by
  rcases hg : gridGet g (p.2 : Int) (p.1 : Int) with _ | t
  · unfold calcFacesStep procSpec
    simp only [hg]
  · by_cases ht : t.tileIndex < 0
    · unfold calcFacesStep procSpec
      simp only [hg, if_pos ht]
    · unfold calcFacesStep procSpec
      simp only [hg, if_neg ht]
      exact gridGet_gridSet_self g p.2 p.1 _ hy hx

theorem calcFacesStep_length (g : Grid) (p : Nat × Nat) :
    (calcFacesStep g p).length = g.length := by
  rcases hg : gridGet g (p.2 : Int) (p.1 : Int) with _ | t
  · unfold calcFacesStep
    simp only [hg]
  · by_cases ht : t.tileIndex < 0
    · unfold calcFacesStep
      simp only [hg, if_pos ht]
    · unfold calcFacesStep
      simp only [hg, if_neg ht]
      exact gridSet_length g _ _ _

theorem calcFacesStep_rowLength (g : Grid) (p : Nat × Nat) (k : Nat) :
    ((calcFacesStep g p).getD k []).length = (g.getD k []).length := by
  rcases hg : gridGet g (p.2 : Int) (p.1 : Int) with _ | t
  · unfold calcFacesStep
    simp only [hg]
  · by_cases ht : t.tileIndex < 0
    · unfold calcFacesStep
      simp only [hg, if_pos ht]
    · unfold calcFacesStep
      simp only [hg, if_neg ht]
      exact gridSet_rowLength g _ _ _ k

theorem simGrid_step {g₀ g : Grid} (p : Nat × Nat) (hsim : simGrid g₀ g)
    (horig : gridGet g (p.2 : Int) (p.1 : Int) = gridGet g₀ (p.2 : Int) (p.1 : Int))
    (hy : p.1 < g.length) (hx : p.2 < (g.getD p.1 []).length) :
    simGrid g₀ (calcFacesStep g p) := by
  intro x y
  by_cases hp : x = (p.2 : Int) ∧ y = (p.1 : Int)
  · obtain ⟨hx', hy'⟩ := hp
    subst hx'
    subst hy'
    rw [calcFacesStep_self g p hy hx]
    rcases hg : gridGet g (p.2 : Int) (p.1 : Int) with _ | t
    · rw [hg] at horig
      rw [← horig]
      unfold procSpec
      simp only [hg]
      trivial
    · rw [hg] at horig
      rw [← horig]
      unfold procSpec
      simp only [hg]
      by_cases ht : t.tileIndex < 0
      · simp only [if_pos ht]
        exact simTile_refl t
      · simp only [if_neg ht]
        refine ⟨rfl, fun i hi => ?_⟩
        show (faceSpecFlags g p.2 p.1 t.tileFlags).testBit i = t.tileFlags.testBit i
        unfold faceSpecFlags
        exact faceComp_low_nibble _ _ _ _ _ i hi
  · rw [calcFacesStep_frame g p x y hp]
    exact hsim x y

theorem procSpec_sim {g₀ g : Grid} {p : Nat × Nat} (hsim : simGrid g₀ g)
    (horig : gridGet g (p.2 : Int) (p.1 : Int) = gridGet g₀ (p.2 : Int) (p.1 : Int)) :
    procSpec g p = procSpec g₀ p := by
  unfold procSpec
  rw [horig]
  simp only [faceSpecFlags_sim hsim]

/-- Main induction over the sweep: processing a duplicate-free list of
in-range, still-untouched cells rewrites exactly those cells to `procSpec`
(read against the start grid), leaves every other cell alone, and preserves
the simulation relation. -/
theorem calcFaces_fold (g₀ : Grid) :
    ∀ (l : List (Nat × Nat)) (g : Grid),
      l.Nodup →
      (∀ p ∈ l, p.1 < g.length ∧ p.2 < (g.getD p.1 []).length) →
      (∀ p ∈ l, gridGet g (p.2 : Int) (p.1 : Int) = gridGet g₀ (p.2 : Int) (p.1 : Int)) →
      simGrid g₀ g →
      (∀ x y : Int, (∀ p ∈ l, ¬(x = (p.2 : Int) ∧ y = (p.1 : Int))) →
        gridGet (l.foldl calcFacesStep g) x y = gridGet g x y) ∧
      (∀ p ∈ l, gridGet (l.foldl calcFacesStep g) (p.2 : Int) (p.1 : Int) = procSpec g₀ p) ∧
      simGrid g₀ (l.foldl calcFacesStep g) := by
  intro l
  induction l with
  | nil =>
    intro g _ _ _ hsim
    exact ⟨fun x y _ => rfl, fun p hp => absurd hp (List.not_mem_nil p), hsim⟩
  | cons p rest ih =>
    intro g hnd hin horig hsim
    have hpin := hin p (List.mem_cons_self p rest)
    have hpor := horig p (List.mem_cons_self p rest)
    have hsim' : simGrid g₀ (calcFacesStep g p) := simGrid_step p hsim hpor hpin.1 hpin.2
    have hnd' : rest.Nodup := (List.nodup_cons.mp hnd).2
    have hpnot : p ∉ rest := (List.nodup_cons.mp hnd).1
    have hin' : ∀ q ∈ rest, q.1 < (calcFacesStep g p).length ∧
        q.2 < ((calcFacesStep g p).getD q.1 []).length := by
      intro q hq
      rw [calcFacesStep_length, calcFacesStep_rowLength]
      exact hin q (List.mem_cons_of_mem _ hq)
    have hne_coords : ∀ q ∈ rest, ¬((q.2 : Int) = (p.2 : Int) ∧ (q.1 : Int) = (p.1 : Int)) := by
      intro q hq hcon
      apply hpnot
      have hq2 : q.2 = p.2 := by exact_mod_cast hcon.1
      have hq1 : q.1 = p.1 := by exact_mod_cast hcon.2
      have : q = p := Prod.ext_iff.mpr ⟨hq1, hq2⟩
      rwa [← this]
    have horig' : ∀ q ∈ rest, gridGet (calcFacesStep g p) (q.2 : Int) (q.1 : Int) =
        gridGet g₀ (q.2 : Int) (q.1 : Int) := by
      intro q hq
      rw [calcFacesStep_frame g p _ _ (hne_coords q hq)]
      exact horig q (List.mem_cons_of_mem _ hq)
    obtain ⟨IH1, IH2, IH3⟩ := ih (calcFacesStep g p) hnd' hin' horig' hsim'
    refine ⟨?_, ?_, ?_⟩
    · intro x y havoid
      rw [List.foldl_cons]
      rw [IH1 x y (fun q hq => havoid q (List.mem_cons_of_mem _ hq))]
      exact calcFacesStep_frame g p x y (havoid p (List.mem_cons_self p rest))
    · intro q hq
      rcases List.mem_cons.mp hq with heq | hq'
      · subst heq
        rw [List.foldl_cons]
        have havoid : ∀ r ∈ rest, ¬((q.2 : Int) = (r.2 : Int) ∧ (q.1 : Int) = (r.1 : Int)) := by
          intro r hr hcon
          apply hpnot
          have hr2 : q.2 = r.2 := by exact_mod_cast hcon.1
          have hr1 : q.1 = r.1 := by exact_mod_cast hcon.2
          have : q = r := Prod.ext_iff.mpr ⟨hr1, hr2⟩
          rwa [this]
        rw [IH1 _ _ havoid]
        rw [calcFacesStep_self g q hpin.1 hpin.2]
        exact procSpec_sim hsim hpor
      · rw [List.foldl_cons]
        exact IH2 q hq'
    · rw [List.foldl_cons]
      exact IH3

theorem mem_rowMajorCells {g : Grid} {height : Int} {p : Nat × Nat} :
    p ∈ rowMajorCells g height ↔
      p.1 < height.toNat ∧ p.2 < (g.getD p.1 []).length := by
  unfold rowMajorCells
  constructor
  · intro hp
    obtain ⟨y, hy, hmem⟩ := List.mem_flatMap.mp hp
    obtain ⟨x, hx, hpx⟩ := List.mem_map.mp hmem
    obtain rfl := hpx.symm
    exact ⟨List.mem_range.mp hy, List.mem_range.mp hx⟩
  · intro ⟨h1, h2⟩
    exact List.mem_flatMap.mpr ⟨p.1, List.mem_range.mpr h1,
      List.mem_map.mpr ⟨p.2, List.mem_range.mpr h2, rfl⟩⟩

theorem rowLength_pos_lt {g : Grid} {y : Nat} (h : 0 < (g.getD y []).length) :
    y < g.length := by
  by_contra hc
  push_neg at hc
  rw [List.getD_eq_getElem?_getD, List.getElem?_eq_none (by omega)] at h
  simp at h

theorem rowMajorCells_nodup (g : Grid) (height : Int) : (rowMajorCells g height).Nodup := by
  unfold rowMajorCells
  rw [List.nodup_flatMap]
  constructor
  · intro y _
    exact (List.nodup_range _).map (fun a b hab => by simpa using congrArg Prod.snd hab)
  · have hpw : (List.range height.toNat).Pairwise (· ≠ ·) := List.nodup_range _
    refine hpw.imp ?_
    intro a b hne q hqa hqb
    obtain ⟨x1, _, h1⟩ := List.mem_map.mp hqa
    obtain ⟨x2, _, h2⟩ := List.mem_map.mp hqb
    apply hne
    have := h1.trans h2.symm
    simpa using congrArg Prod.fst this

theorem foldl_calcFacesStep_length (l : List (Nat × Nat)) (g : Grid) :
    (l.foldl calcFacesStep g).length = g.length := by
  induction l generalizing g with
  | nil => rfl
  | cons p rest ih => rw [List.foldl_cons, ih, calcFacesStep_length]

theorem foldl_calcFacesStep_rowLength (l : List (Nat × Nat)) (g : Grid) (k : Nat) :
    ((l.foldl calcFacesStep g).getD k []).length = (g.getD k []).length := by
  induction l generalizing g with
  | nil => rfl
  | cons p rest ih => rw [List.foldl_cons, ih, calcFacesStep_rowLength]

/-- The whole sweep, characterised cell-wise: every enumerated cell ends at
`procSpec` (face bits recomputed against the start grid, everything else
kept), every other cell is untouched, and the simulation relation holds. -/
theorem calcFacesSweep_spec (g₀ : Grid) (height : Int) :
    (∀ p ∈ rowMajorCells g₀ height,
      gridGet (calcFacesSweep g₀ height) (p.2 : Int) (p.1 : Int) = procSpec g₀ p) ∧
    (∀ x y : Int, (∀ p ∈ rowMajorCells g₀ height, ¬(x = (p.2 : Int) ∧ y = (p.1 : Int))) →
      gridGet (calcFacesSweep g₀ height) x y = gridGet g₀ x y) ∧
    simGrid g₀ (calcFacesSweep g₀ height) := by
  have hin : ∀ p ∈ rowMajorCells g₀ height,
      p.1 < g₀.length ∧ p.2 < (g₀.getD p.1 []).length := by
    intro p hp
    have h := mem_rowMajorCells.mp hp
    exact ⟨rowLength_pos_lt (by omega), h.2⟩
  obtain ⟨h1, h2, h3⟩ := calcFaces_fold g₀ (rowMajorCells g₀ height) g₀
    (rowMajorCells_nodup g₀ height) hin (fun p _ => rfl) (simGrid_refl g₀)
  exact ⟨h2, h1, h3⟩

theorem land_mask_testBit (f : Nat) (m k : Nat) (hm : m = 2 ^ k) :
    (f &&& m != 0) = f.testBit k := by
  subst hm
  exact land_two_pow_ne_zero f k

theorem gridGet_some_nonneg {g : Grid} {x y : Int} {t : Tile}
    (h : gridGet g x y = some t) : 0 ≤ x ∧ 0 ≤ y := by
  unfold gridGet at h
  by_cases hy : y < 0
  · simp [hy] at h
  · by_cases hx : x < 0
    · simp [hx] at h
    · omega

theorem getD_some_lt {α : Type _} {l : List (Option α)} {n : Nat} {t : α}
    (h : l.getD n none = some t) : n < l.length := by
  by_contra hc
  push_neg at hc
  rw [List.getD_eq_getElem?_getD, List.getElem?_eq_none (by omega)] at h
  simp at h

/-- The four face-bit getters of a tile whose flags were recomputed by the
sweep, in terms of its own collide getters and the neighbor culls. -/
theorem faceSpec_tile_faces (g₀ : Grid) (x y : Nat) (t₀ : Tile) :
    ({ t₀ with tileFlags := faceSpecFlags g₀ x y t₀.tileFlags } : Tile).faceTop
      = (({ t₀ with tileFlags := faceSpecFlags g₀ x y t₀.tileFlags } : Tile).collideUp &&
         !hasCollideBit g₀ (x : Int) ((y : Int) - 1) 0x08) ∧
    ({ t₀ with tileFlags := faceSpecFlags g₀ x y t₀.tileFlags } : Tile).faceBottom
      = (({ t₀ with tileFlags := faceSpecFlags g₀ x y t₀.tileFlags } : Tile).collideDown &&
         !hasCollideBit g₀ (x : Int) ((y : Int) + 1) 0x04) ∧
    ({ t₀ with tileFlags := faceSpecFlags g₀ x y t₀.tileFlags } : Tile).faceLeft
      = (({ t₀ with tileFlags := faceSpecFlags g₀ x y t₀.tileFlags } : Tile).collideLeft &&
         !hasCollideBit g₀ ((x : Int) - 1) (y : Int) 0x02) ∧
    ({ t₀ with tileFlags := faceSpecFlags g₀ x y t₀.tileFlags } : Tile).faceRight
      = (({ t₀ with tileFlags := faceSpecFlags g₀ x y t₀.tileFlags } : Tile).collideRight &&
         !hasCollideBit g₀ ((x : Int) + 1) (y : Int) 0x01) := by
  refine ⟨?_, ?_, ?_, ?_⟩
  · show (faceSpecFlags g₀ x y t₀.tileFlags &&& 0x80 != 0) =
      ((faceSpecFlags g₀ x y t₀.tileFlags &&& 0x08 != 0) &&
        !hasCollideBit g₀ (x : Int) ((y : Int) - 1) 0x08)
    rw [land_mask_testBit _ 0x80 7 (by norm_num), land_mask_testBit _ 0x08 3 (by norm_num)]
    unfold faceSpecFlags
    rw [faceComp_testBit7, faceComp_testBit_low _ _ _ _ _ 3 (by norm_num)]
  · show (faceSpecFlags g₀ x y t₀.tileFlags &&& 0x40 != 0) =
      ((faceSpecFlags g₀ x y t₀.tileFlags &&& 0x04 != 0) &&
        !hasCollideBit g₀ (x : Int) ((y : Int) + 1) 0x04)
    rw [land_mask_testBit _ 0x40 6 (by norm_num), land_mask_testBit _ 0x04 2 (by norm_num)]
    unfold faceSpecFlags
    rw [faceComp_testBit6, faceComp_testBit_low _ _ _ _ _ 2 (by norm_num)]
  · show (faceSpecFlags g₀ x y t₀.tileFlags &&& 0x20 != 0) =
      ((faceSpecFlags g₀ x y t₀.tileFlags &&& 0x02 != 0) &&
        !hasCollideBit g₀ ((x : Int) - 1) (y : Int) 0x02)
    rw [land_mask_testBit _ 0x20 5 (by norm_num), land_mask_testBit _ 0x02 1 (by norm_num)]
    unfold faceSpecFlags
    rw [faceComp_testBit5, faceComp_testBit_low _ _ _ _ _ 1 (by norm_num)]
  · show (faceSpecFlags g₀ x y t₀.tileFlags &&& 0x10 != 0) =
      ((faceSpecFlags g₀ x y t₀.tileFlags &&& 0x01 != 0) &&
        !hasCollideBit g₀ ((x : Int) + 1) (y : Int) 0x01)
    rw [land_mask_testBit _ 0x10 4 (by norm_num), land_mask_testBit _ 0x01 0 (by norm_num)]
    unfold faceSpecFlags
    rw [faceComp_testBit4, faceComp_testBit_low _ _ _ _ _ 0 (by norm_num)]

/-- The spec's face-culling scenario: a 3×1 layer, index 1 in all three
cells, `setDefaultCollisionFlags([1], ALL_SIDES)` (which itself refreshes),
then `refreshLayer(true)`. -/
def threeByOne : TileLayer :=
  let L0 := mkTileLayer 3 1
  let L1 := (setCell L0 0 0 1 none none).getD L0
  let L2 := (setCell L1 1 0 1 none none).getD L1
  let L3 := (setCell L2 2 0 1 none none).getD L2
  let L4 := (setDefaultCollisionFlags L3 [1] 15 none).getD L3
  refreshLayer true L4

theorem procSpec_pair (g₀ : Grid) (y x : Nat) :
    procSpec g₀ (y, x) =
      match gridGet g₀ (x : Int) (y : Int) with
      | none => none
      | some t =>
        if t.tileIndex < 0 then some t
        else some { t with tileFlags := faceSpecFlags g₀ x y t.tileFlags } := rfl

/-- C1: after `calculateFaces` completes on a well-formed layer, every
existing stored tile's face bits equal its collide bits, except that a face
is cleared when the neighboring cell in that direction holds a tile with the
same-named collide bit set (`hasCollideBit` is the source's `n && n.collideX`
check; absent neighbors never cull, and under well-formedness non-existent
stored tiles carry no flags so they never cull either).  In particular, the
spec's 3×1 scenario: after `setDefaultCollisionFlagsForIndexes([1],
ALL_SIDES)` and `refreshLayer(true)`, the middle tile loses both horizontal
faces and each outer tile keeps the face on its open side. -/
theorem c1_calculateFaces_culling :
    (∀ (L : TileLayer), layerWF L → ∀ (x y : Int) (t : Tile),
      gridGet (calculateFaces true L).data x y = some t → 0 ≤ t.tileIndex →
      (t.faceTop = (t.collideUp &&
        !hasCollideBit (calculateFaces true L).data x (y - 1) 0x08)) ∧
      (t.faceBottom = (t.collideDown &&
        !hasCollideBit (calculateFaces true L).data x (y + 1) 0x04)) ∧
      (t.faceLeft = (t.collideLeft &&
        !hasCollideBit (calculateFaces true L).data (x - 1) y 0x02)) ∧
      (t.faceRight = (t.collideRight &&
        !hasCollideBit (calculateFaces true L).data (x + 1) y 0x01))) ∧
    ((getTileRef threeByOne 0 0).map
        (fun t => (t.faceTop, t.faceBottom, t.faceLeft, t.faceRight))
        = some (true, true, true, false) ∧
     (getTileRef threeByOne 1 0).map
        (fun t => (t.faceTop, t.faceBottom, t.faceLeft, t.faceRight))
        = some (true, true, false, false) ∧
     (getTileRef threeByOne 2 0).map
        (fun t => (t.faceTop, t.faceBottom, t.faceLeft, t.faceRight))
        = some (true, true, false, true)) := by
  constructor
  · intro L hwf x y t hget hidx
    have hdata : (calculateFaces true L).data = calcFacesSweep L.data L.height := by
      unfold calculateFaces
      simp
    rw [hdata] at hget ⊢
    obtain ⟨hproc, hframe, hsim⟩ := calcFacesSweep_spec L.data L.height
    obtain ⟨hx0, hy0⟩ := gridGet_some_nonneg hget
    have hxx : ((x.toNat : Int)) = x := Int.toNat_of_nonneg hx0
    have hyy : ((y.toNat : Int)) = y := Int.toNat_of_nonneg hy0
    rw [← hxx, ← hyy] at hget ⊢
    have hget2 := hget
    rw [gridGet_natCast] at hget2
    have hxlt : x.toNat < ((calcFacesSweep L.data L.height).getD y.toNat []).length :=
      getD_some_lt hget2
    have hxg : x.toNat < (L.data.getD y.toNat []).length := by
      have h := hxlt
      unfold calcFacesSweep at h
      rwa [foldl_calcFacesStep_rowLength] at h
    have hyg : y.toNat < L.data.length := rowLength_pos_lt (by omega)
    have hyh : y.toNat < L.height.toNat := by
      have hlen := hwf.2.2.1
      omega
    have hmem : (y.toNat, x.toNat) ∈ rowMajorCells L.data L.height :=
      mem_rowMajorCells.mpr ⟨hyh, hxg⟩
    have hps : gridGet (calcFacesSweep L.data L.height) ((x.toNat : Int)) ((y.toNat : Int)) =
        procSpec L.data (y.toNat, x.toNat) := hproc _ hmem
    rw [hget, procSpec_pair] at hps
    rcases hg0 : gridGet L.data ((x.toNat : Int)) ((y.toNat : Int)) with _ | t₀
    · rw [hg0] at hps
      exact absurd hps (by simp)
    · rw [hg0] at hps
      have hps' : some t = (if t₀.tileIndex < 0 then some t₀
          else some { t₀ with tileFlags := faceSpecFlags L.data x.toNat y.toNat t₀.tileFlags }) :=
        hps
      by_cases ht0 : t₀.tileIndex < 0
      · rw [if_pos ht0] at hps'
        have ht : t = t₀ := Option.some.inj hps'
        exfalso
        rw [ht] at hidx
        omega
      · rw [if_neg ht0] at hps'
        have ht : t = { t₀ with tileFlags := faceSpecFlags L.data x.toNat y.toNat t₀.tileFlags } :=
          Option.some.inj hps'
        subst ht
        rw [hasCollideBit_sim hsim _ _ 0x08 3 (by norm_num) (by norm_num),
          hasCollideBit_sim hsim _ _ 0x04 2 (by norm_num) (by norm_num),
          hasCollideBit_sim hsim _ _ 0x02 1 (by norm_num) (by norm_num),
          hasCollideBit_sim hsim _ _ 0x01 0 (by norm_num) (by norm_num)]
        exact faceSpec_tile_faces L.data x.toNat y.toNat t₀
  · refine ⟨?_, ?_, ?_⟩ <;> decide

/-- Witness for C1: the general part instantiated on `sampleLayer` at the
stored tile `(0,0)`, with every hypothesis discharged by `decide`. -/
theorem c1_calculateFaces_culling_witness :
    (layerWF sampleLayer ∧
     gridGet (calculateFaces true sampleLayer).data 0 0 = some (mkTile 3 0 0) ∧
     0 ≤ (mkTile 3 0 0).tileIndex) ∧
    ((mkTile 3 0 0).faceTop = ((mkTile 3 0 0).collideUp &&
        !hasCollideBit (calculateFaces true sampleLayer).data 0 (0 - 1) 0x08) ∧
     (mkTile 3 0 0).faceBottom = ((mkTile 3 0 0).collideDown &&
        !hasCollideBit (calculateFaces true sampleLayer).data 0 (0 + 1) 0x04) ∧
     (mkTile 3 0 0).faceLeft = ((mkTile 3 0 0).collideLeft &&
        !hasCollideBit (calculateFaces true sampleLayer).data (0 - 1) 0 0x02) ∧
     (mkTile 3 0 0).faceRight = ((mkTile 3 0 0).collideRight &&
        !hasCollideBit (calculateFaces true sampleLayer).data (0 + 1) 0 0x01)) :=
  ⟨⟨by decide, by decide, by decide⟩,
   c1_calculateFaces_culling.1 sampleLayer (by decide) 0 0 (mkTile 3 0 0)
     (by decide) (by decide)⟩

/-! ## Region machinery for the shuffle claim -/

theorem mem_intRange {a b v : Int} : v ∈ intRange a b ↔ a ≤ v ∧ v < b := by
  unfold intRange
  constructor
  · intro hv
    obtain ⟨k, hk, rfl⟩ := List.mem_map.mp hv
    have hk' := List.mem_range.mp hk
    omega
  · intro ⟨h1, h2⟩
    refine List.mem_map.mpr ⟨(v - a).toNat, List.mem_range.mpr (by omega), by omega⟩

theorem intRange_nodup (a b : Int) : (intRange a b).Nodup := by
  unfold intRange
  exact (List.nodup_range _).map (fun m n h => by omega)

theorem mem_regionCells {r : Rect} {p : Int × Int} :
    p ∈ regionCells r ↔
      (r.x ≤ p.1 ∧ p.1 < r.x + r.width) ∧ (r.y ≤ p.2 ∧ p.2 < r.y + r.height) := by
  unfold regionCells
  constructor
  · intro hp
    obtain ⟨ty, hty, hmem⟩ := List.mem_flatMap.mp hp
    obtain ⟨tx, htx, hpx⟩ := List.mem_map.mp hmem
    obtain rfl := hpx.symm
    exact ⟨mem_intRange.mp htx, mem_intRange.mp hty⟩
  · intro ⟨h1, h2⟩
    exact List.mem_flatMap.mpr ⟨p.2, mem_intRange.mpr h2,
      List.mem_map.mpr ⟨p.1, mem_intRange.mpr h1, rfl⟩⟩

theorem regionCells_nodup (r : Rect) : (regionCells r).Nodup := by
  unfold regionCells
  rw [List.nodup_flatMap]
  constructor
  · intro y _
    exact (intRange_nodup _ _).map (fun a b hab => by simpa using congrArg Prod.fst hab)
  · refine ((intRange_nodup r.y (r.y + r.height)).imp ?_)
    intro a b hne q hqa hqb
    obtain ⟨x1, _, h1⟩ := List.mem_map.mp hqa
    obtain ⟨x2, _, h2⟩ := List.mem_map.mp hqb
    apply hne
    have := h1.trans h2.symm
    simpa using congrArg Prod.snd this

theorem fitRect_bounds (L : TileLayer) (r0 : Rect) :
    0 ≤ (fitRectInLayer L r0).x ∧ 0 ≤ (fitRectInLayer L r0).y ∧
    ((fitRectInLayer L r0).width ≤ 0 ∨
      (fitRectInLayer L r0).x + (fitRectInLayer L r0).width ≤ L.width) ∧
    ((fitRectInLayer L r0).height ≤ 0 ∨
      (fitRectInLayer L r0).y + (fitRectInLayer L r0).height ≤ L.height) := by
  refine ⟨?_, ?_, ?_, ?_⟩ <;>
    simp only [fitRectInLayer, clamp] <;> split_ifs <;> omega

/-- The tile `getTilesEx` hands out for a region cell under
`forceMaterialize`: the stored tile, or a fresh absent tile at the cell. -/
def materializedAt (L : TileLayer) (p : Int × Int) : Tile :=
  match gridGet L.data p.1 p.2 with
  | some t => t
  | none => mkTile (-1) p.1 p.2

theorem materializedAt_tileIndex (L : TileLayer) (p : Int × Int) :
    (materializedAt L p).tileIndex = cellIndexAt L p.1 p.2 := by
  unfold materializedAt cellIndexAt
  rcases gridGet L.data p.1 p.2 with _ | t <;> rfl

theorem flatMap_congr_left {α β : Type _} {l : List α} {f g : α → List β}
    (h : ∀ a ∈ l, f a = g a) : l.flatMap f = l.flatMap g := by
  rw [List.flatMap_def, List.flatMap_def, List.map_congr_left h]

theorem intRange_empty {a b : Int} (h : b ≤ a) : intRange a b = [] := by
  unfold intRange
  rw [show (b - a).toNat = 0 by omega]
  rfl

/-- What `getTilesEx` extracts for a materialized, non-copy read of an
in-layer region: one `some` entry per region cell, row-major, holding the
stored tile or a fresh absent tile. -/
theorem getTilesEx_region (L : TileLayer) (hwf : layerWF L) (r : Rect)
    (hx0 : 0 ≤ r.x) (hy0 : 0 ≤ r.y)
    (hxw : r.width ≤ 0 ∨ r.x + r.width ≤ L.width)
    (hyh : r.height ≤ 0 ∨ r.y + r.height ≤ L.height) :
    getTilesEx L r.x r.y r.width r.height true false =
      (regionCells r).map (fun p => some (materializedAt L p)) := by
  obtain ⟨hw, hh, hdl, hrows⟩ := hwf
  unfold getTilesEx regionCells
  rw [max_eq_left hx0, max_eq_left hy0, List.map_flatMap]
  dsimp only
  rcases hyh with hhneg | hhle
  · rw [intRange_empty (le_trans (min_le_left _ _) (by omega)),
      intRange_empty (show r.y + r.height ≤ r.y by omega)]
    rfl
  · rw [min_eq_left hhle]
    refine flatMap_congr_left ?_
    intro ty hty
    obtain ⟨hty1, hty2⟩ := mem_intRange.mp hty
    rw [List.map_map]
    rcases hxw with hwneg | hwle
    · rw [intRange_empty (le_trans (min_le_left _ _) (le_trans (min_le_left _ _) (by omega))),
        intRange_empty (show r.x + r.width ≤ r.x by omega)]
      rfl
    · have htyd : ty.toNat < L.data.length := by omega
      have hrow := (hrows ty.toNat (List.mem_range.mpr htyd)).1
      have hexr : min (min (r.x + r.width) L.width)
          ((L.data.getD ty.toNat []).length : Int) = r.x + r.width := by
        rw [hrow]
        have : ((L.width.toNat : Nat) : Int) = L.width := Int.toNat_of_nonneg hw
        omega
      rw [hexr]
      refine List.map_congr_left ?_
      intro tx htx
      obtain ⟨htx1, htx2⟩ := mem_intRange.mp htx
      have hg : gridGet L.data tx ty = (L.data.getD ty.toNat []).getD tx.toNat none := by
        have h1 : ¬(ty < 0) := by omega
        have h2 : ¬(tx < 0) := by omega
        unfold gridGet
        simp [h1, h2]
      show (match (L.data.getD ty.toNat []).getD tx.toNat none with
        | none => if true then some (mkTile (-1) tx ty) else none
        | some t => if false then some (t.clone true) else some t) =
        some (materializedAt L (tx, ty))
      unfold materializedAt
      rw [hg]
      rcases (L.data.getD ty.toNat []).getD tx.toNat none with _ | t <;> rfl

theorem collectIndexes_map {α : Type _} (ps : List α) (f : α → Tile) :
    collectIndexes (ps.map (fun p => some (f p))) =
      some (ps.map (fun p => (f p).tileIndex)) := by
  induction ps with
  | nil => rfl
  | cons p ps ih => simp [collectIndexes, ih]

theorem assignIndexes_map {α : Type _} (idx : List (Int × IndexData)) (ps : List α)
    (f : α → Tile) (vs : List Int) (hlen : vs.length = ps.length) :
    assignIndexes idx (ps.map (fun p => some (f p))) vs =
      some (List.zipWith (fun p v => some (tileIndexSet idx (f p) v)) ps vs) := by
  induction ps generalizing vs with
  | nil =>
    cases vs with
    | nil => rfl
    | cons v vs => simp at hlen
  | cons p ps ih =>
    cases vs with
    | nil => simp at hlen
    | cons v vs =>
      simp only [List.map_cons, assignIndexes, List.zipWith_cons_cons]
      rw [ih vs (by simpa using hlen)]
      rfl

theorem applyDefaultTileRules_preserves (idx : List (Int × IndexData)) (t : Tile) :
    (applyDefaultTileRules idx t).x = t.x ∧ (applyDefaultTileRules idx t).y = t.y ∧
    (applyDefaultTileRules idx t).tileIndex = t.tileIndex := by
  rcases hd : lookupIndexData idx t.tileIndex with _ | d
  · unfold applyDefaultTileRules
    simp [hd]
  · rcases hm : d.defaultCollideMask with _ | m <;>
      (unfold applyDefaultTileRules; simp [hd, hm])

theorem tileIndexSet_props (idx : List (Int × IndexData)) (t : Tile) (v : Int) :
    (tileIndexSet idx t v).x = t.x ∧ (tileIndexSet idx t v).y = t.y ∧
    (tileIndexSet idx t v).tileIndex = (if v < 0 then -1 else v) := by
  unfold tileIndexSet
  split_ifs with h1 h2
  · exact ⟨rfl, rfl, rfl⟩
  · obtain ⟨ha, hb, hc⟩ := applyDefaultTileRules_preserves idx { t with tileIndex := v }
    exact ⟨ha, hb, hc⟩
  · refine ⟨rfl, rfl, ?_⟩
    have : v = t.tileIndex := by simpa using h2
    rw [← this]

theorem copyFrom_tileIndex (t s : Tile) (d : Bool) :
    (t.copyFrom s d).tileIndex = s.tileIndex := by
  unfold Tile.copyFrom
  split_ifs <;> rfl

theorem cellIndexAt_eq_of_gridGet {L₁ L₂ : TileLayer} {x y : Int}
    (h : gridGet L₁.data x y = gridGet L₂.data x y) :
    cellIndexAt L₁ x y = cellIndexAt L₂ x y := by
  unfold cellIndexAt
  rw [h]

/-- One in-bounds `setCellFromTile` with a non-null source: it succeeds,
keeps the grid dimensions, touches only its own cell, and leaves that cell's
index equal to the source's (clamped to `-1` for a non-existent source). -/
theorem setCellFromTile_effect (L : TileLayer) (x y : Int) (s : Tile)
    (hy : 0 ≤ y) (hyl : y < (L.data.length : Int))
    (hx : 0 ≤ x) (hxl : x < ((L.data.getD y.toNat []).length : Int)) :
    ∃ L', setCellFromTile L x y (some s) = some L' ∧
      L'.data.length = L.data.length ∧
      (∀ k, (L'.data.getD k []).length = (L.data.getD k []).length) ∧
      (∀ q1 q2 : Int, ¬(q1 = x ∧ q2 = y) → gridGet L'.data q1 q2 = gridGet L.data q1 q2) ∧
      cellIndexAt L' x y = (if s.tileIndex > -1 then s.tileIndex else -1) := by
  have hxs : ((x.toNat : Int)) = x := Int.toNat_of_nonneg hx
  have hys : ((y.toNat : Int)) = y := Int.toNat_of_nonneg hy
  have hyn : y.toNat < L.data.length := by omega
  have hxn : x.toNat < (L.data.getD y.toNat []).length := by omega
  have hg1 : ¬(y < 0) := by omega
  have hg2 : ¬((L.data.length : Int) ≤ y) := by omega
  have hg3 : ¬(x < 0) := by omega
  have hg4 : ¬(((L.data.getD y.toNat []).length : Int) ≤ x) := by omega
  by_cases hs : s.tileIndex > -1
  · have hens : ∃ t0, ensureTileVal L x y = some t0 := by
      unfold ensureTileVal
      rw [if_neg (by simp only [Bool.or_eq_true, decide_eq_true_eq]; exact not_or.mpr ⟨hg1, hg2⟩),
        if_neg (by simp only [Bool.or_eq_true, decide_eq_true_eq]; exact not_or.mpr ⟨hg3, hg4⟩)]
      rcases (L.data.getD y.toNat []).getD x.toNat none with _ | t
      · exact ⟨_, rfl⟩
      · exact ⟨_, rfl⟩
    obtain ⟨t0, ht0⟩ := hens
    refine ⟨{ L with data := gridSet L.data x y (some (t0.copyFrom s false)), changeCount := L.changeCount + 1 }, ?_, ?_, ?_, ?_, ?_⟩
    · unfold setCellFromTile
      dsimp only
      rw [if_pos hs, ht0]
    · exact gridSet_length _ _ _ _
    · exact fun k => gridSet_rowLength _ _ _ _ k
    · intro q1 q2 hne
      show gridGet (gridSet L.data x y _) q1 q2 = gridGet L.data q1 q2
      rw [← hxs, ← hys]
      exact gridGet_gridSet_ne _ _ _ _ _ _
        (fun hcon => hne ⟨hcon.1.trans hxs, hcon.2.trans hys⟩)
    · unfold cellIndexAt
      show (match gridGet (gridSet L.data x y (some (t0.copyFrom s false))) x y with
        | some t => t.tileIndex
        | none => (-1 : Int)) = _
      rw [← hxs, ← hys, gridGet_gridSet_self _ _ _ _ hyn hxn]
      rw [if_pos hs]
      exact copyFrom_tileIndex t0 s false
  · have hcl : clearCell L x y = { L with data := gridSet L.data x y none, changeCount := L.changeCount + 1 } := by
      unfold clearCell
      rw [if_neg (by simp only [Bool.or_eq_true, decide_eq_true_eq]; exact not_or.mpr ⟨hg1, hg2⟩),
        if_neg (by simp only [Bool.or_eq_true, decide_eq_true_eq]; exact not_or.mpr ⟨hg3, hg4⟩)]
    refine ⟨{ L with data := gridSet L.data x y none, changeCount := L.changeCount + 1 }, ?_, ?_, ?_, ?_, ?_⟩
    · unfold setCellFromTile
      dsimp only
      rw [if_neg hs, hcl]
    · exact gridSet_length _ _ _ _
    · exact fun k => gridSet_rowLength _ _ _ _ k
    · intro q1 q2 hne
      show gridGet (gridSet L.data x y _) q1 q2 = gridGet L.data q1 q2
      rw [← hxs, ← hys]
      exact gridGet_gridSet_ne _ _ _ _ _ _
        (fun hcon => hne ⟨hcon.1.trans hxs, hcon.2.trans hys⟩)
    · unfold cellIndexAt
      show (match gridGet (gridSet L.data x y none) x y with
        | some t => t.tileIndex
        | none => (-1 : Int)) = _
      rw [← hxs, ← hys, gridGet_gridSet_self _ _ _ _ hyn hxn]
      rw [if_neg hs]

/-- The `transformRegion` write-back over tiles at pairwise-distinct in-bounds
positions: it succeeds, keeps dimensions, leaves untouched cells alone, and
leaves each written cell's index equal to its tile's (clamped to `-1`). -/
theorem writeBack_snapshot :
    ∀ (ts : List Tile) (L : TileLayer),
      (∀ t ∈ ts, 0 ≤ t.y ∧ t.y < (L.data.length : Int) ∧ 0 ≤ t.x ∧
          t.x < ((L.data.getD t.y.toNat []).length : Int)) →
      (ts.map (fun t => (t.x, t.y))).Nodup →
      ∃ L', writeBackTiles (ts.map some) L = some L' ∧
        L'.data.length = L.data.length ∧
        (∀ k, (L'.data.getD k []).length = (L.data.getD k []).length) ∧
        (∀ q1 q2 : Int, (∀ t ∈ ts, ¬(q1 = t.x ∧ q2 = t.y)) →
          gridGet L'.data q1 q2 = gridGet L.data q1 q2) ∧
        ts.map (fun t => cellIndexAt L' t.x t.y) =
          ts.map (fun t => if t.tileIndex > -1 then t.tileIndex else -1) := by
  intro ts
  induction ts with
  | nil =>
    intro L _ _
    exact ⟨L, rfl, rfl, fun _ => rfl, fun _ _ _ => rfl, rfl⟩
  | cons t ts ih =>
    intro L hin hnd
    obtain ⟨hty, htyl, htx, htxl⟩ := hin t (List.mem_cons_self t ts)
    obtain ⟨L₁, hL₁, hlen₁, hrow₁, hframe₁, hcell₁⟩ :=
      setCellFromTile_effect L t.x t.y t hty htyl htx htxl
    have hin' : ∀ u ∈ ts, 0 ≤ u.y ∧ u.y < (L₁.data.length : Int) ∧ 0 ≤ u.x ∧
        u.x < ((L₁.data.getD u.y.toNat []).length : Int) := by
      intro u hu
      obtain ⟨h1, h2, h3, h4⟩ := hin u (List.mem_cons_of_mem _ hu)
      rw [hlen₁, hrow₁]
      exact ⟨h1, h2, h3, h4⟩
    have hnd' : (ts.map (fun u => (u.x, u.y))).Nodup := (List.nodup_cons.mp hnd).2
    have hhead : (t.x, t.y) ∉ ts.map (fun u => (u.x, u.y)) := (List.nodup_cons.mp hnd).1
    obtain ⟨L', hWB, hlen', hrow', hframe', hsnap'⟩ := ih L₁ hin' hnd'
    refine ⟨L', ?_, hlen'.trans hlen₁, fun k => (hrow' k).trans (hrow₁ k), ?_, ?_⟩
    · show writeBackTiles (some t :: ts.map some) L = some L'
      unfold writeBackTiles
      rw [hL₁]
      exact hWB
    · intro q1 q2 hq
      rw [hframe' q1 q2 (fun u hu => hq u (List.mem_cons_of_mem _ hu))]
      exact hframe₁ q1 q2 (hq t (List.mem_cons_self t ts))
    · rw [List.map_cons, List.map_cons]
      have hff : ∀ u ∈ ts, ¬(t.x = u.x ∧ t.y = u.y) := by
        intro u hu hcon
        exact hhead (List.mem_map.mpr ⟨u, hu, by rw [hcon.1, hcon.2]⟩)
      have hcellT : cellIndexAt L' t.x t.y = (if t.tileIndex > -1 then t.tileIndex else -1) := by
        rw [cellIndexAt_eq_of_gridGet (hframe' t.x t.y hff), hcell₁]
      rw [hcellT, hsnap']

theorem simGrid_index {g₀ g : Grid} (h : simGrid g₀ g) (x y : Int) :
    (gridGet g x y).map Tile.tileIndex = (gridGet g₀ x y).map Tile.tileIndex := by
  have hc := h x y
  rcases h0 : gridGet g₀ x y with _ | t₀ <;> rcases h1 : gridGet g x y with _ | t
  · rfl
  · rw [h0, h1] at hc; exact (hc : False).elim
  · rw [h0, h1] at hc; exact (hc : False).elim
  · rw [h0, h1] at hc
    have hc' : simTile t₀ t := hc
    simp [hc'.1]

theorem applyRulesGrid_index (idx : List (Int × IndexData)) (g : Grid) (height : Int)
    (x y : Int) :
    (gridGet (applyRulesGrid idx g height) x y).map Tile.tileIndex =
      (gridGet g x y).map Tile.tileIndex := by
  by_cases hy : y < 0
  · unfold applyRulesGrid gridGet
    simp [hy]
  by_cases hx : x < 0
  · unfold applyRulesGrid gridGet
    simp [hx]
  have hgg : ∀ g' : Grid, gridGet g' x y = (g'[y.toNat]?.getD []).getD x.toNat none := by
    intro g'
    unfold gridGet
    rw [if_neg (by simp [hy, hx])]
    simp [List.getD_eq_getElem?_getD]
  unfold applyRulesGrid
  rw [hgg, hgg, List.getElem?_mapIdx]
  rcases hrow : g[y.toNat]? with _ | row
  · rfl
  · dsimp only [Option.map, Option.getD]
    split_ifs with hcond
    · rw [List.getD_eq_getElem?_getD, List.getD_eq_getElem?_getD, List.getElem?_map]
      rcases hslot : row[x.toNat]? with _ | slot
      · rfl
      · rcases slot with _ | t
        · rfl
        · simp [(applyDefaultTileRules_preserves idx t).2.2]
    · rfl

/-- `refreshLayer` never changes any cell's stored index (both passes only
rewrite flag bits). -/
theorem refreshLayer_cellIndex (f : Bool) (L : TileLayer) (x y : Int) :
    cellIndexAt (refreshLayer f L) x y = cellIndexAt L x y := by
  have step1 : ∀ M : TileLayer, cellIndexAt (applyRules f M) x y = cellIndexAt M x y := by
    intro M
    unfold applyRules
    split_ifs
    · rfl
    · rfl
    · unfold cellIndexAt
      have h := applyRulesGrid_index M.indexData M.data M.height x y
      show (match gridGet (applyRulesGrid M.indexData M.data M.height) x y with
        | some t => t.tileIndex
        | none => (-1 : Int)) = _
      rcases h1 : gridGet (applyRulesGrid M.indexData M.data M.height) x y with _ | t <;>
        rcases h0 : gridGet M.data x y with _ | t₀ <;>
        rw [h1, h0] at h <;> simp at h <;> simp [h]
  have step2 : ∀ M : TileLayer, cellIndexAt (calculateFaces f M) x y = cellIndexAt M x y := by
    intro M
    unfold calculateFaces
    split_ifs
    · rfl
    · rfl
    · unfold cellIndexAt
      have hsim := (calcFacesSweep_spec M.data M.height).2.2
      have h := simGrid_index hsim x y
      show (match gridGet (calcFacesSweep M.data M.height) x y with
        | some t => t.tileIndex
        | none => (-1 : Int)) = _
      rcases h1 : gridGet (calcFacesSweep M.data M.height) x y with _ | t <;>
        rcases h0 : gridGet M.data x y with _ | t₀ <;>
        rw [h1, h0] at h <;> simp at h <;> simp [h]
  unfold refreshLayer
  rw [step2, step1]

theorem gridGet_wf {L : TileLayer} (hwf : layerWF L) {x y : Int} {t : Tile}
    (hg : gridGet L.data x y = some t) : t.x = x ∧ t.y = y ∧ -1 ≤ t.tileIndex := by
  obtain ⟨hw, hh, hdl, hrows⟩ := hwf
  obtain ⟨hx0, hy0⟩ := gridGet_some_nonneg hg
  have hcond : ¬((decide (y < 0) || decide (x < 0)) = true) := by
    simp only [Bool.or_eq_true, decide_eq_true_eq]
    exact not_or.mpr ⟨by omega, by omega⟩
  have hg2 : (L.data.getD y.toNat []).getD x.toNat none = some t := by
    have heq : gridGet L.data x y = (L.data.getD y.toNat []).getD x.toNat none := by
      unfold gridGet
      rw [if_neg hcond]
    rwa [← heq]
  have hxlt : x.toNat < (L.data.getD y.toNat []).length := getD_some_lt hg2
  have hylt : y.toNat < L.data.length := rowLength_pos_lt (by omega)
  have hwf2 := (hrows y.toNat (List.mem_range.mpr hylt)).2 x.toNat (List.mem_range.mpr hxlt)
  rw [hg2] at hwf2
  have hwf3 : t.x = (x.toNat : Int) ∧ t.y = (y.toNat : Int) ∧ -1 ≤ t.tileIndex ∧
      (t.tileIndex < 0 → t.tileFlags = 0) := hwf2
  exact ⟨by rw [hwf3.1, Int.toNat_of_nonneg hx0],
    by rw [hwf3.2.1, Int.toNat_of_nonneg hy0], hwf3.2.2.1⟩

theorem materializedAt_coords {L : TileLayer} (hwf : layerWF L) (p : Int × Int) :
    (materializedAt L p).x = p.1 ∧ (materializedAt L p).y = p.2 := by
  unfold materializedAt
  rcases hg : gridGet L.data p.1 p.2 with _ | t
  · exact ⟨rfl, rfl⟩
  · obtain ⟨h1, h2, _⟩ := gridGet_wf hwf hg
    exact ⟨h1, h2⟩

theorem cellIndexAt_ge {L : TileLayer} (hwf : layerWF L) (x y : Int) :
    -1 ≤ cellIndexAt L x y := by
  unfold cellIndexAt
  rcases hg : gridGet L.data x y with _ | t
  · exact le_refl _
  · exact (gridGet_wf hwf hg).2.2

theorem zipWith_coords_eq (idx : List (Int × IndexData)) (L : TileLayer)
    (ps : List (Int × Int)) (vs : List Int) (hlen : vs.length = ps.length)
    (hco : ∀ p ∈ ps, (materializedAt L p).x = p.1 ∧ (materializedAt L p).y = p.2) :
    (List.zipWith (fun p v => tileIndexSet idx (materializedAt L p) v) ps vs).map
      (fun t => (t.x, t.y)) = ps := by
  induction ps generalizing vs with
  | nil => simp
  | cons p ps ih =>
    cases vs with
    | nil => simp at hlen
    | cons v vs =>
      rw [List.zipWith_cons_cons, List.map_cons]
      obtain ⟨h1, h2, _⟩ := tileIndexSet_props idx (materializedAt L p) v
      obtain ⟨h3, h4⟩ := hco p (List.mem_cons_self p ps)
      rw [ih vs (by simpa using hlen) (fun q hq => hco q (List.mem_cons_of_mem _ hq))]
      rw [h1, h2, h3, h4]

theorem zipWith_index_eq (idx : List (Int × IndexData)) (L : TileLayer)
    (ps : List (Int × Int)) (vs : List Int) (hlen : vs.length = ps.length)
    (hv : ∀ v ∈ vs, -1 ≤ v) :
    (List.zipWith (fun p v => tileIndexSet idx (materializedAt L p) v) ps vs).map
      (fun t => if t.tileIndex > -1 then t.tileIndex else -1) = vs := by
  induction ps generalizing vs with
  | nil =>
    cases vs with
    | nil => simp
    | cons v vs => simp at hlen
  | cons p ps ih =>
    cases vs with
    | nil => simp at hlen
    | cons v vs =>
      rw [List.zipWith_cons_cons, List.map_cons]
      rw [ih vs (by simpa using hlen) (fun u hu => hv u (List.mem_cons_of_mem _ hu))]
      have hidx := (tileIndexSet_props idx (materializedAt L p) v).2.2
      have hvv := hv v (List.mem_cons_self v vs)
      by_cases hneg : v < 0
      · have hv1 : v = -1 := by omega
        rw [hidx, if_pos hneg, if_neg (by omega), hv1]
      · rw [hidx, if_neg hneg, if_pos (by omega)]

theorem regionCells_bounds {L : TileLayer} (rect : Rect) {p : Int × Int}
    (hp : p ∈ regionCells (fitRectInLayer L rect)) :
    0 ≤ p.1 ∧ p.1 < L.width ∧ 0 ≤ p.2 ∧ p.2 < L.height := by
  obtain ⟨hrx, hry, hrw, hrh⟩ := fitRect_bounds L rect
  obtain ⟨⟨h1, h2⟩, h3, h4⟩ := mem_regionCells.mp hp
  rcases hrw with hw0 | hwle
  · omega
  · rcases hrh with hh0 | hhle <;> omega

/-- C8: `shuffle` (the `transformRegion` pipeline with `_shuffleTransform`)
preserves the multiset of per-cell indexes of the fitted region, for every
well-formed layer, every rectangle and every permutation outcome of
`Phaser.Utils.shuffle` — position contents move, the index multiset does
not (absent cells read as index `-1`). -/
theorem c8_shuffle_preserves_multiset (L : TileLayer) (rect : Rect)
    (shuffleFn : List Int → List Int) (hwf : layerWF L)
    (hperm : ∀ l : List Int, (shuffleFn l).Perm l) :
    ∃ L', shuffleRegion L shuffleFn rect = some L' ∧
      (regionIndexes L' (fitRectInLayer L rect)).Perm
        (regionIndexes L (fitRectInLayer L rect)) := by
  obtain ⟨hrx, hry, hrw, hrh⟩ := fitRect_bounds L rect
  set r := fitRectInLayer L rect with hr
  set ps := regionCells r with hps
  set idxs := ps.map (fun p => (materializedAt L p).tileIndex) with hidxs
  set vs := shuffleFn idxs with hvs
  have hpermv : vs.Perm idxs := hperm idxs
  have hlen : vs.length = ps.length := by
    rw [hpermv.length_eq, hidxs, List.length_map]
  set ts := List.zipWith (fun p v => tileIndexSet L.indexData (materializedAt L p) v) ps vs
    with hts
  have hco : ∀ p ∈ ps, (materializedAt L p).x = p.1 ∧ (materializedAt L p).y = p.2 :=
    fun p _ => materializedAt_coords hwf p
  have hcoords : ts.map (fun t => (t.x, t.y)) = ps :=
    zipWith_coords_eq _ _ ps vs hlen hco
  have hnd : (ts.map (fun t => (t.x, t.y))).Nodup := by
    rw [hcoords, hps]
    exact regionCells_nodup r
  have hin : ∀ t ∈ ts, 0 ≤ t.y ∧ t.y < (L.data.length : Int) ∧ 0 ≤ t.x ∧
      t.x < ((L.data.getD t.y.toNat []).length : Int) := by
    intro t ht
    have hmem : (t.x, t.y) ∈ ps := by
      rw [← hcoords]
      exact List.mem_map_of_mem _ ht
    rw [hps, hr] at hmem
    have hb := regionCells_bounds rect hmem
    obtain ⟨hw, hh, hdl, hrows⟩ := hwf
    have hylen : t.y.toNat < L.data.length := by
      have := hb.2.2
      omega
    have hrowlen := (hrows t.y.toNat (List.mem_range.mpr hylen)).1
    refine ⟨hb.2.2.1, by omega, hb.1, ?_⟩
    rw [hrowlen]
    have := hb.2.1
    omega
  obtain ⟨L', hWB, hlenL, hrowL, hframeL, hsnap⟩ := writeBack_snapshot ts L hin hnd
  have hext := getTilesEx_region L hwf r hrx hry hrw hrh
  have hcb : shuffleTransform L.indexData shuffleFn
      (ps.map (fun p => some (materializedAt L p))) = some (ts.map some) := by
    unfold shuffleTransform
    rw [collectIndexes_map ps (materializedAt L)]
    show assignIndexes L.indexData (ps.map (fun p => some (materializedAt L p))) vs =
      some (ts.map some)
    rw [assignIndexes_map L.indexData ps (materializedAt L) vs hlen]
    rw [hts, List.map_zipWith]
  have hrun : shuffleRegion L shuffleFn rect = some (refreshLayer false L') := by
    unfold shuffleRegion transformRegion
    dsimp only
    rw [← hr, hext, ← hps, hcb]
    show (match writeBackTiles (ts.map some) L with
      | none => none
      | some M => some (refreshLayer false M)) = some (refreshLayer false L')
    rw [hWB]
  refine ⟨refreshLayer false L', hrun, ?_⟩
  have hv : ∀ v ∈ vs, -1 ≤ v := by
    intro v hvv
    have hvi : v ∈ idxs := hpermv.mem_iff.mp hvv
    obtain ⟨p, _, hpv⟩ := List.mem_map.mp hvi
    rw [← hpv, materializedAt_tileIndex]
    exact cellIndexAt_ge hwf p.1 p.2
  have e1 : regionIndexes (refreshLayer false L') r = regionIndexes L' r := by
    unfold regionIndexes
    exact List.map_congr_left (fun p _ => refreshLayer_cellIndex false L' p.1 p.2)
  have e2 : regionIndexes L' r = vs := by
    unfold regionIndexes
    have hmm : ps.map (fun p => cellIndexAt L' p.1 p.2) =
        ts.map (fun t => cellIndexAt L' t.x t.y) := by
      rw [← hcoords, List.map_map]
      rfl
    rw [← hps, hmm, hsnap, hts, zipWith_index_eq L.indexData L ps vs hlen hv]
  have e3 : regionIndexes L r = idxs := by
    unfold regionIndexes
    rw [hidxs, ← hps]
    exact List.map_congr_left (fun p _ => (materializedAt_tileIndex L p).symm)
  rw [e1, e2, e3]
  exact hpermv

/-- Witness for C8: the theorem applied to the 2×1 `sampleLayer`, the full
rectangle, and `List.reverse` as the permutation outcome. -/
theorem c8_shuffle_preserves_multiset_witness :
    layerWF sampleLayer ∧
    (∃ L', shuffleRegion sampleLayer List.reverse ⟨0, 0, 2, 1⟩ = some L' ∧
      (regionIndexes L' (fitRectInLayer sampleLayer ⟨0, 0, 2, 1⟩)).Perm
        (regionIndexes sampleLayer (fitRectInLayer sampleLayer ⟨0, 0, 2, 1⟩))) :=
  ⟨by decide,
   c8_shuffle_preserves_multiset sampleLayer ⟨0, 0, 2, 1⟩ List.reverse (by decide)
     (fun l => List.reverse_perm l)⟩

end Phaser

